import Mathlib

/-!
# customElementWrapper: a shallow embedding of `custom-element-wrapper.service.js`

The service wraps AngularJS components with custom elements.  This file embeds
the parts of the service that its specification talks about:

* `decode` (source lines 563-615): the decoder factory and the setter it returns;
* the scope-level event handler installed by `connectedCallback` (lines 418-437);
* `create` (lines 298-513) and `hasGetterOrSetter` (lines 523-532);
* the constructor, `connectedCallback` and `disconnectedCallback` of an element
  (lines 335-342 and 350-456).

Modelling conventions.

* JavaScript values are the inductive type `JSVal`.  A plain object is the list
  of its own enumerable properties in `Object.keys` order; numbers are the
  integral ones.
* Functions are values `JSVal.fn r`.  The lodash functions the service passes
  around as values are named constructors of `FnRef`; every other function is
  `FnRef.user id` and is interpreted by `Env.call`, a function of the
  arguments that either returns a value or throws.
* A throwing operation returns the state reached at the throw together with
  the error message, since JavaScript does not roll anything back.
* The AngularJS scope, `$injector` and `window.customElements` are
  collaborators.  A scope is its own data properties, the properties it reads
  through its parent, and the number of `$evalAsync` requests made on it; the
  scope's methods are not data properties.
* The inner element is its tag, its markup and its attribute table.  The page is
  an HTML document and `angular.element` is jqLite: `componentElement.attr`
  writes the lower-cased name as the value of a boolean attribute, names are
  stored in lower case, and a name the document does not accept makes
  `createElement` and `setAttribute` throw.  `$compile(element)(scope)` is
  recorded with the element and the scope it was given.
-/

namespace CustomElementWrapper

/-! ## JavaScript values -/

/-- Function values. The lodash functions are the ones the service uses as values. -/
inductive FnRef where
  | isBoolean
  | isInteger
  | isString
  | isPlainObject
  | isEqual
  | identity
  | user (id : Nat)
  deriving DecidableEq, Repr

/-- JavaScript values. -/
inductive JSVal where
  | undefined
  | null
  | bool (b : Bool)
  | num (n : Int)
  | str (s : String)
  | fn (f : FnRef)
  | arr (items : List JSVal)
  | obj (props : List (String × JSVal))

/-- Own properties of an object, in `Object.keys` order. -/
abbrev Props := List (String × JSVal)

namespace JSVal

/-- JavaScript truthiness (`if (v)`, `v || w`). -/
def truthy : JSVal → Bool
  | .undefined => false
  | .null => false
  | .bool b => b
  | .num n => n != 0
  | .str s => s != ""
  | .fn _ => true
  | .arr _ => true
  | .obj _ => true

/-- The `typeof` operator. -/
def typeof : JSVal → String
  | .undefined => "undefined"
  | .null => "object"
  | .bool _ => "boolean"
  | .num _ => "number"
  | .str _ => "string"
  | .fn _ => "function"
  | .arr _ => "object"
  | .obj _ => "object"

/-- Property read `o[k]` on a plain object: the own data property, `undefined` when there
is none. Other values have no properties here: the service reads properties of values it
has checked to be plain objects and, in `decode`, option names no other value has. -/
def getProp : JSVal → String → JSVal
  | .obj props, k => (props.lookup k).getD .undefined
  | _, _ => .undefined

/-- The test `o.hasOwnProperty(k)`. -/
def hasOwnProperty : JSVal → String → Bool
  | .obj props, k => (props.lookup k).isSome
  | _, _ => false

/-- The list `Object.keys(o)` of a value that is neither `undefined` nor `null`: the own
keys of an object, the indices of an array or of a string (one for each character),
nothing otherwise. -/
def keys : JSVal → List String
  | .obj props => props.map Prod.fst
  | .arr items => (List.range items.length).map toString
  | .str s => (List.range s.length).map toString
  | _ => []

end JSVal

/-- Assignment `o[k] = v` on a property list: overwrite in place, or append a new key. -/
def setProp {α : Type} (k : String) (v : α) : List (String × α) → List (String × α)
  | [] => [(k, v)]
  | (k', v') :: rest => if k' = k then (k, v) :: rest else (k', v') :: setProp k v rest

/-! ## lodash and angular helpers -/

namespace Lodash

/-- The predicate `_.isBoolean`. -/
def isBoolean : JSVal → Bool
  | .bool _ => true
  | _ => false

/-- The predicate `_.isInteger`. -/
def isInteger : JSVal → Bool
  | .num _ => true
  | _ => false

/-- The predicate `_.isString`. -/
def isString : JSVal → Bool
  | .str _ => true
  | _ => false

/-- The predicate `_.isPlainObject`. -/
def isPlainObject : JSVal → Bool
  | .obj _ => true
  | _ => false

/-- The predicate `_.isFunction`. -/
def isFunction : JSVal → Bool
  | .fn _ => true
  | _ => false

mutual
/-- Deep equality `_.isEqual`: primitives by value, functions by reference, arrays
elementwise, plain objects by key set and values whatever the key order. -/
def isEqual : JSVal → JSVal → Bool
  | .undefined, .undefined => true
  | .null, .null => true
  | .bool a, .bool b => a == b
  | .num a, .num b => a == b
  | .str a, .str b => a == b
  | .fn a, .fn b => a == b
  | .arr a, .arr b => isEqualItems a b
  | .obj a, .obj b => a.length == b.length && isEqualProps a b
  | _, _ => false
/-- Elementwise deep equality of arrays. -/
def isEqualItems : List JSVal → List JSVal → Bool
  | [], [] => true
  | a :: as, b :: bs => isEqual a b && isEqualItems as bs
  | _, _ => false
/-- Every property of the first list is in the second with a deeply equal value. -/
def isEqualProps : List (String × JSVal) → List (String × JSVal) → Bool
  | [], _ => true
  | (k, a) :: as, other =>
    (match other.lookup k with
      | some b => isEqual a b
      | none => false) && isEqualProps as other
end

end Lodash

/-- The predicate `angular.isUndefined`. -/
def isUndefined : JSVal → Bool
  | .undefined => true
  | _ => false

/-- What the service is given by its surroundings. -/
structure Env where
  /-- Behaviour of the functions supplied by callers: a result or a thrown error. -/
  call : Nat → List JSVal → Except String JSVal
  /-- The string function `_.camelCase`. -/
  camelCase : String → String
  /-- The string function `_.kebabCase`. -/
  kebabCase : String → String
  /-- The query `$injector.has`. -/
  injectorHas : String → Bool
  /-- Whether `window.customElements.define` accepts the tag name. -/
  validTagName : String → Bool

/-- Calling a function value with positional arguments (missing ones are `undefined`). -/
def callFn (env : Env) (f : FnRef) (args : List JSVal) : Except String JSVal :=
  match f with
  | .isBoolean => .ok (.bool (Lodash.isBoolean (args.getD 0 .undefined)))
  | .isInteger => .ok (.bool (Lodash.isInteger (args.getD 0 .undefined)))
  | .isString => .ok (.bool (Lodash.isString (args.getD 0 .undefined)))
  | .isPlainObject => .ok (.bool (Lodash.isPlainObject (args.getD 0 .undefined)))
  | .isEqual => .ok (.bool (Lodash.isEqual (args.getD 0 .undefined) (args.getD 1 .undefined)))
  | .identity => .ok (args.getD 0 .undefined)
  | .user id => env.call id args

/-! ## The decoder factory (`decode`, source lines 563-615) -/

/-- The closure environment of the function `decode(options)` returns: the validated
fields of `options` the setter reads, the chosen `equalityCheck` and `nullValue`.
`valueTransformation` is `some t` exactly when `isValueTransformationFunction`. -/
structure Decoder where
  assert : FnRef
  type : String
  valueTransformation : Option FnRef
  equalityCheck : FnRef
  nullValue : JSVal

/-- The function `decode(options)`: its four assertions in source order, then `nullValue`. -/
def decode (options : JSVal) : Except String Decoder :=
  match options with
  | .undefined => .error "TypeError: Cannot read properties of undefined"
  | .null => .error "TypeError: Cannot read properties of null"
  | _ =>
    let valueTransformation := options.getProp "valueTransformation"
    let equalityCheck :=
      if (options.getProp "equalityCheck").truthy then options.getProp "equalityCheck"
      else .fn .isEqual
    if !(Lodash.isFunction valueTransformation || isUndefined valueTransformation) then
      .error "Value transformation should be a function"
    else
      match equalityCheck with
      | .fn eq =>
        match options.getProp "assert" with
        | .fn assertion =>
          match options.getProp "type" with
          | .str type =>
            .ok
              { assert := assertion
                type := type
                valueTransformation :=
                  match valueTransformation with
                  | .fn t => some t
                  | _ => none
                equalityCheck := eq
                nullValue :=
                  if options.hasOwnProperty "nullValue" then options.getProp "nullValue"
                  else .undefined }
          | _ => .error "Value type should be a string"
        | _ => .error "Assertion should be a function"
      | _ => .error "Equality check should be a function"

/-- The setter `decode(options)(bindingName).set`, as the closure it is. -/
structure Setter where
  decoder : Decoder
  bindingName : String

/-- The function returned by `decode(options)`, applied to a binding name. -/
def Decoder.apply (d : Decoder) (bindingName : JSVal) : Except String Setter :=
  match bindingName with
  | .str name => .ok { decoder := d, bindingName := name }
  | _ => .error "Binding name should be a string"

/-- Options of `service.decode.boolean`. -/
def decode.booleanOptions : JSVal :=
  .obj [("assert", .fn .isBoolean), ("type", .str "boolean")]

/-- Options of `service.decode.integer`. -/
def decode.integerOptions : JSVal :=
  .obj [("assert", .fn .isInteger), ("type", .str "integer")]

/-- Options of `service.decode.string`. -/
def decode.stringOptions : JSVal :=
  .obj [("assert", .fn .isString), ("type", .str "string")]

/-- Options of `service.decode.object`. -/
def decode.objectOptions : JSVal :=
  .obj [("assert", .fn .isPlainObject), ("type", .str "object")]

/-- The decoder `service.decode.boolean`. -/
def decode.boolean : Except String Decoder := decode decode.booleanOptions

/-- The decoder `service.decode.integer`. -/
def decode.integer : Except String Decoder := decode decode.integerOptions

/-- The decoder `service.decode.string`. -/
def decode.string : Except String Decoder := decode decode.stringOptions

/-- The decoder `service.decode.object`. -/
def decode.object : Except String Decoder := decode decode.objectOptions

/-! ## The scope of an element -/

/-- The scope `$rootScope.$new()` of one element: its own data properties, the data
properties it inherits from its parent, and the `$evalAsync` requests made on it. -/
structure Scope where
  own : Props
  parent : Props
  evalAsyncRequests : Nat
  destroyed : Bool

/-- Property read `$scope[k]`: own property first, then the parent, else `undefined`. -/
def Scope.get (scope : Scope) (k : String) : JSVal :=
  match scope.own.lookup k with
  | some v => v
  | none => (scope.parent.lookup k).getD .undefined

/-- Assignment `$scope[k] = v`: always an own property. -/
def Scope.assign (scope : Scope) (k : String) (v : JSVal) : Scope :=
  { scope with own := setProp k v scope.own }

/-- The request `$scope.$evalAsync()`. -/
def Scope.evalAsync (scope : Scope) : Scope :=
  { scope with evalAsyncRequests := scope.evalAsyncRequests + 1 }

/-- A call the setter made to one of the functions of its decode options. -/
inductive Invocation where
  | assert (value : JSVal)
  | valueTransformation (value : JSVal)
  | equalityCheck (newValue previous : JSVal)

/-- What one run of the setter leaves behind: the scope, the calls it made to the
functions of the options (in order), and the error it threw, if any. -/
structure SetResult where
  scope : Scope
  invoked : List Invocation
  error : Option String

/-- The expression `isValueTransformationFunction ? options.valueTransformation(value) : value`. -/
def Setter.newValue (env : Env) (s : Setter) (value : JSVal) : Except String JSVal :=
  match s.decoder.valueTransformation with
  | some t => callFn env t [value]
  | none => .ok value

/-- The calls `Setter.newValue` makes. -/
def Setter.newValueCalls (s : Setter) (value : JSVal) : List Invocation :=
  match s.decoder.valueTransformation with
  | some _ => [.valueTransformation value]
  | none => []

/-- The final statement of the setter: `if (shouldDigestChanges) this.$scope.$evalAsync()`. -/
def digestChanges (shouldDigestChanges : Bool) (scope : Scope) : Scope :=
  if shouldDigestChanges then scope.evalAsync else scope

/-- The setter `set: function (value)` of source lines 586-612, run on the element scope. -/
def Setter.set (env : Env) (s : Setter) (scope : Scope) (value : JSVal) : SetResult :=
  match value with
  | .null =>
    { scope := digestChanges true (scope.assign s.bindingName s.decoder.nullValue)
      invoked := []
      error := none }
  | _ =>
    match callFn env s.decoder.assert [value] with
    | .error e => { scope := scope, invoked := [.assert value], error := some e }
    | .ok passed =>
      if passed.truthy then
        match s.newValue env value with
        | .error e =>
          { scope := scope
            invoked := .assert value :: s.newValueCalls value
            error := some e }
        | .ok newValue =>
          let invoked :=
            .assert value :: s.newValueCalls value ++
              [.equalityCheck newValue (scope.get s.bindingName)]
          match callFn env s.decoder.equalityCheck [newValue, scope.get s.bindingName] with
          | .error e => { scope := scope, invoked := invoked, error := some e }
          | .ok (.bool false) =>
            { scope := digestChanges true (scope.assign s.bindingName newValue)
              invoked := invoked
              error := none }
          | .ok _ => { scope := digestChanges false scope, invoked := invoked, error := none }
      else
        { scope := scope
          invoked := [.assert value]
          error := some ("Expected a " ++ s.decoder.type ++ " or null, but got " ++ value.typeof) }

/-! ## The scope-level event handler (source lines 418-437) -/

/-- A dispatched `CustomEvent`: its name and its `detail`. -/
structure CustomEvent where
  type : String
  detail : JSVal

/-- One step of the `reduce` over the injectables: `detail[injectable]` gets the encoded
argument at `index`, then `null` in place of `undefined`. -/
def encodeInjectable (env : Env) (eventSpec : JSVal) (args : List JSVal) (detail : Props)
    (injectable : String) (index : Nat) : Except String Props :=
  match eventSpec.getProp injectable with
  | .fn encode =>
    match callFn env encode [args.getD index .undefined] with
    | .error e => .error e
    | .ok encoded =>
      if isUndefined encoded then .ok (setProp injectable .null (setProp injectable encoded detail))
      else .ok (setProp injectable encoded detail)
  | _ => .error "TypeError: events[event][injectable] is not a function"

/-- The call `injectables.reduce(..., detail)` from position `index` on. -/
def reduceInjectables (env : Env) (eventSpec : JSVal) (args : List JSVal) :
    List String → Nat → Props → Except String Props
  | [], _, detail => .ok detail
  | injectable :: rest, index, detail =>
    match encodeInjectable env eventSpec args detail injectable index with
    | .error e => .error e
    | .ok detail' => reduceInjectables env eventSpec args rest (index + 1) detail'

/-- The function stored in `self.$scope[event]`, as the closure it is. -/
structure EventHandler where
  events : JSVal
  event : String
  injectables : List String

/-- The handler `connectedCallback` builds for one key of `events`. -/
def eventHandler (events : JSVal) (event : String) : EventHandler :=
  { events := events, event := event, injectables := (events.getProp event).keys }

/-- One invocation of the handler with positional arguments: the custom events it
dispatches on the element, and the error it throws, if any. -/
def EventHandler.invoke (env : Env) (h : EventHandler) (args : List JSVal) :
    List CustomEvent × Option String :=
  match reduceInjectables env (h.events.getProp h.event) args h.injectables 0 [] with
  | .error e => ([], some e)
  | .ok detail => ([{ type := h.event, detail := .obj detail }], none)

/-- The value `null` in place of `undefined`. -/
def nullIfUndefined (v : JSVal) : JSVal :=
  if isUndefined v then .null else v

/-! ## The registry (`create`, source lines 298-513) -/

/-- The helper `assert(assertion, message)` of source lines 629-633. -/
def assert (assertion : Bool) (message : String) : Except String Unit :=
  if !assertion then .error message else .ok ()

/-- The call `Object.keys(value)`, which throws on `undefined` and `null`. -/
def objectKeys (value : JSVal) : Except String (List String) :=
  match value with
  | .undefined => .error "TypeError: Cannot convert undefined or null to object"
  | .null => .error "TypeError: Cannot convert undefined or null to object"
  | _ => .ok value.keys

/-- The test `Array.isArray(value) && value.every(_.isString)`. -/
def isArrayOfStrings : JSVal → Bool
  | .arr items => items.all Lodash.isString
  | _ => false

/-- The function `hasGetterOrSetter(property, bindingName)` of source lines 523-532. -/
def hasGetterOrSetter (property : JSVal) (bindingName : String) : Except String Unit := do
  let getSetKeys ← objectKeys property
  let hasGetSetProperties :=
    getSetKeys == ["set", "get"] || getSetKeys == ["get", "set"] ||
      getSetKeys == ["get"] || getSetKeys == ["set"]
  assert (Lodash.isPlainObject property && hasGetSetProperties)
    ("Binding \"" ++ bindingName ++ "\" should be have either setter or getter or both")

/-- A property of the `prototype` object that `create` hands to `Object.create`. -/
inductive Descriptor where
  | constructorValue
  | connectedCallback
  | disconnectedCallback
  | stringSetter (s : Setter)
  | resolved (property : JSVal)

/-- The `prototype` object of `create`, in key order. -/
abbrev Prototype := List (String × Descriptor)

/-- The constructor function `create` stores in the registry, with the variables of
`create` its callbacks close over and the prototype assigned to it (`none` until the
assignment of source line 508). -/
structure CustomElementClass where
  componentName : String
  attrs : JSVal
  interpolations : JSVal
  bindings : JSVal
  customBindings : JSVal
  events : JSVal
  prototype : Option Prototype

/-- State of the service and of the page: `service.private.customElements` and the
classes defined in `window.customElements`, by tag name. -/
structure Service where
  customElements : List (String × CustomElementClass)
  defined : List (String × CustomElementClass)

/-- The loop over `Object.keys(events)` of source lines 326-330. -/
def checkEvents (events : JSVal) : List String → Except String Unit
  | [] => .ok ()
  | event :: rest => do
    assert (Lodash.isPlainObject (events.getProp event))
      "Value of event should be an object with injectables"
    assert (((events.getProp event).keys.map (events.getProp event).getProp).all
        Lodash.isFunction)
      "Value of injectable should be a function"
    checkEvents events rest

/-- The assert checks of `create` (source lines 303-331), on the options after
`options = options || {}`. -/
def assertChecks (env : Env) (service : Service) (componentName : String)
    (options : JSVal) : Except String Unit := do
  assert ((service.customElements.lookup componentName).isSome == false)
    ("Component with name " ++ componentName ++ " already registered")
  assert (env.injectorHas (env.camelCase componentName ++ "Directive"))
    ("There is no component defined for name: " ++ componentName)
  assert (Lodash.isPlainObject options) "Options should be an object"
  let attrs := options.getProp "attrs"
  let interpolations := options.getProp "interpolations"
  let bindings := options.getProp "bindings"
  let customBindings := options.getProp "customBindings"
  let events := options.getProp "events"
  assert (isArrayOfStrings attrs || isUndefined attrs)
    "Options attributes should be an array of strings"
  assert (isArrayOfStrings interpolations || isUndefined interpolations)
    "Options interpolations should be an array of strings"
  assert (Lodash.isPlainObject bindings || isUndefined bindings)
    "Options bindings should be an object"
  assert (Lodash.isPlainObject customBindings || isUndefined customBindings)
    "Options custom bindings should be an object"
  assert (Lodash.isPlainObject events || isUndefined events)
    "Options events should be an object"
  if events.truthy then checkEvents events events.keys else .ok ()

/-- The loop of source lines 461-463: a string setter for each interpolation. -/
def extendWithInterpolations : List JSVal → Prototype → Except String Prototype
  | [], prototype => .ok prototype
  | interpolation :: rest, prototype => do
    let decoder ← decode.string
    let setter ← decoder.apply interpolation
    extendWithInterpolations rest (setProp setter.bindingName (.stringSetter setter) prototype)

/-- The resolution of a declaration: a factory function is called with the binding
name, anything else is used as it is. -/
def resolveDeclaration (env : Env) (declaration : JSVal) (binding : String) :
    Except String JSVal :=
  match declaration with
  | .fn factory => callFn env factory [.str binding]
  | literal => .ok literal

/-- The loop of source lines 468-481 over `Object.keys(bindings)`. -/
def extendWithBindings (env : Env) (bindings : JSVal) :
    List String → Prototype → Except String Prototype
  | [], prototype => .ok prototype
  | binding :: rest, prototype => do
    let isBindingFunction := Lodash.isFunction (bindings.getProp binding)
    assert (isBindingFunction || Lodash.isPlainObject (bindings.getProp binding))
      "Value of binding should be a function or an object"
    let property ← resolveDeclaration env (bindings.getProp binding) binding
    hasGetterOrSetter property binding
    extendWithBindings env bindings rest (setProp binding (.resolved property) prototype)

/-- The loop of source lines 486-505 over `Object.keys(customBindings)`. -/
def extendWithCustomBindings (env : Env) (customBindings : JSVal) :
    List String → Prototype → Except String Prototype
  | [], prototype => .ok prototype
  | binding :: rest, prototype => do
    assert (Lodash.isPlainObject (customBindings.getProp binding))
      "Value of custom binding should be an object"
    assert (Lodash.isString ((customBindings.getProp binding).getProp "attr"))
      "Value of custom binding should have a string value of \"attr\" property"
    assert (Lodash.isString ((customBindings.getProp binding).getProp "attrValue"))
      "Value of custom binding should have a string value of \"attrValue\" property"
    let isDecodeFunction :=
      Lodash.isFunction ((customBindings.getProp binding).getProp "decode")
    assert (isDecodeFunction ||
        Lodash.isPlainObject ((customBindings.getProp binding).getProp "decode"))
      "Value of custom binding should have a \"decode\" method or property with object type"
    let property ←
      resolveDeclaration env ((customBindings.getProp binding).getProp "decode") binding
    hasGetterOrSetter property binding
    extendWithCustomBindings env customBindings rest
      (setProp binding (.resolved property) prototype)

/-- The items of an array; nothing for any other value. -/
def arrayItems : JSVal → List JSVal
  | .arr items => items
  | _ => []

/-- The prototype `create` assembles (source lines 346-506). -/
def buildPrototype (env : Env) (options : JSVal) : Except String Prototype := do
  let interpolations := options.getProp "interpolations"
  let bindings := options.getProp "bindings"
  let customBindings := options.getProp "customBindings"
  let prototype : Prototype :=
    [("constructor", .constructorValue), ("connectedCallback", .connectedCallback),
      ("disconnectedCallback", .disconnectedCallback)]
  let prototype ←
    (if interpolations.truthy then
      extendWithInterpolations (arrayItems interpolations) prototype
    else .ok prototype)
  let prototype ←
    (if bindings.truthy then extendWithBindings env bindings bindings.keys prototype
    else .ok prototype)
  if customBindings.truthy then
    extendWithCustomBindings env customBindings customBindings.keys prototype
  else .ok prototype

/-- Whether `Object.create` accepts the descriptor: the `get` and the `set` of an
accessor descriptor are functions or `undefined`. -/
def acceptedByObjectCreate : Descriptor → Bool
  | .resolved property =>
    (Lodash.isFunction (property.getProp "get") || isUndefined (property.getProp "get")) &&
      (Lodash.isFunction (property.getProp "set") || isUndefined (property.getProp "set"))
  | _ => true

/-- The call `Object.create(HTMLElement.prototype, prototype)`. -/
def objectCreate (prototype : Prototype) : Except String Prototype :=
  if prototype.all (fun p => acceptedByObjectCreate p.2) then .ok prototype
  else .error "TypeError: Getter or setter must be a function"

/-- The call `$window.customElements.define(tag, constructor)`: the platform refuses
a tag name that is not a valid custom element name and a tag that is already defined. -/
def define (env : Env) (defined : List (String × CustomElementClass)) (tag : String)
    (constructor : CustomElementClass) : Except String (List (String × CustomElementClass)) :=
  if !env.validTagName tag then .error "SyntaxError: not a valid custom element name"
  else if (defined.lookup tag).isSome then
    .error "NotSupportedError: the name has already been used with this registry"
  else .ok (defined ++ [(tag, constructor)])

/-- What a call of `create` leaves behind: the state, and the error it threw, if any. -/
structure CreateResult where
  service : Service
  error : Option String

/-- The function `create(componentName, options)` of source lines 298-513. -/
def create (env : Env) (service : Service) (componentName : String) (options : JSVal) :
    CreateResult :=
  let options := if options.truthy then options else .obj []
  match assertChecks env service componentName options with
  | .error e => { service := service, error := some e }
  | .ok _ =>
    let constructor : CustomElementClass :=
      { componentName := componentName
        attrs := options.getProp "attrs"
        interpolations := options.getProp "interpolations"
        bindings := options.getProp "bindings"
        customBindings := options.getProp "customBindings"
        events := options.getProp "events"
        prototype := none }
    let registered : Service :=
      { service with
        customElements := setProp componentName constructor service.customElements }
    match buildPrototype env options >>= objectCreate with
    | .error e => { service := registered, error := some e }
    | .ok prototype =>
      let constructor := { constructor with prototype := some prototype }
      let registered : Service :=
        { service with
          customElements := setProp componentName constructor service.customElements }
      match define env service.defined ("custom-" ++ componentName) constructor with
      | .error e => { service := registered, error := some e }
      | .ok defined => { service := { registered with defined := defined }, error := none }

/-- The messages of the assert checks of `create`, in source order. -/
def assertMessages (componentName : String) : List String :=
  [ "Component with name " ++ componentName ++ " already registered",
    "There is no component defined for name: " ++ componentName,
    "Options should be an object",
    "Options attributes should be an array of strings",
    "Options interpolations should be an array of strings",
    "Options bindings should be an object",
    "Options custom bindings should be an object",
    "Options events should be an object",
    "Value of event should be an object with injectables",
    "Value of injectable should be a function" ]

/-- The condition `a host component is defined for componentName`. -/
def hasComponent (env : Env) (componentName : String) : Bool :=
  env.injectorHas (env.camelCase componentName ++ "Directive")

/-- The condition `options is a plain object or falsy` (a falsy value is replaced by
`{}` in the first statement of `create`). -/
def optionsAccepted (options : JSVal) : Bool :=
  Lodash.isPlainObject options || !options.truthy

/-- The condition `options[key] is absent or an array of strings`. -/
def stringsOrAbsent (options : JSVal) (key : String) : Bool :=
  isArrayOfStrings (options.getProp key) || isUndefined (options.getProp key)

/-- The condition `options[key] is absent or a plain object`. -/
def objectOrAbsent (options : JSVal) (key : String) : Bool :=
  Lodash.isPlainObject (options.getProp key) || isUndefined (options.getProp key)

/-- The condition `every value of the object is a function`. -/
def allFunctions (eventSpec : JSVal) : Bool :=
  (eventSpec.keys.map eventSpec.getProp).all Lodash.isFunction

/-- The outcome `create throws message and changes neither the registry nor the page`. -/
def failsUnchanged (env : Env) (service : Service) (componentName : String)
    (options : JSVal) (message : String) : Prop :=
  create env service componentName options = { service := service, error := some message }

/-! ## Element instances (source lines 335-342 and 350-456) -/

/-- The part of `$rootScope` the constructor uses: its data properties, which every new
scope reads through, and the `$id` the next call of `$new()` hands out. -/
structure RootScope where
  props : Props
  nextId : Nat

/-- The call `$rootScope.$new()`: a scope with a new `$id` and no data of its own. -/
def RootScope.new (root : RootScope) : RootScope × Nat × Scope :=
  ({ root with nextId := root.nextId + 1 }, root.nextId,
    { own := [], parent := root.props, evalAsyncRequests := 0, destroyed := false })

/-- What `connectedCallback` is given by the page: the name check of the document and the
string function jqLite lower-cases with. The page is an HTML document and
`angular.element` is jqLite. -/
structure Document where
  /-- Whether `document.createElement` and `element.setAttribute` accept the name; they
  throw an `InvalidCharacterError` when they do not. -/
  validName : String → Bool
  /-- The string function `String.prototype.toLowerCase` behind jqLite's `lowercase`. -/
  toLowerCase : String → String

/-- A name in ASCII lower case, as an HTML document stores element and attribute names. -/
def asciiLowerCase (name : String) : String :=
  String.mk (name.data.map Char.toLower)

/-- The inner element `angular.element(document.createElement(componentName))`: its tag,
the markup copied into it, and its attributes in the order they were first set. -/
structure ComponentElement where
  tagName : String
  innerHTML : String
  attributes : List (String × String)

/-- The call `document.createElement(localName)`: it throws on a name the document does not
accept and creates an element without attributes, its name lower-cased, otherwise. -/
def createElement (document : Document) (localName : String) : Except String ComponentElement :=
  if document.validName localName then
    .ok { tagName := asciiLowerCase localName, innerHTML := "", attributes := [] }
  else .error "InvalidCharacterError"

/-- The call `element.setAttribute(name, value)`: it throws on a name the document does not
accept; otherwise the attribute of the lower-cased name gets the value, in place when the
element has the attribute already. -/
def ComponentElement.setAttribute (document : Document) (element : ComponentElement)
    (name value : String) : Except String ComponentElement :=
  if document.validName name then
    .ok { element with attributes := setProp (asciiLowerCase name) value element.attributes }
  else .error "InvalidCharacterError"

/-- The lower-cased names jqLite's table `BOOLEAN_ATTR` holds. -/
def booleanAttributes : List String :=
  ["multiple", "selected", "checked", "disabled", "readonly", "required", "open"]

/-- The call `componentElement.attr(name, value)` of jqLite with a string value:
`element.setAttribute(name, isBooleanAttr ? lowercasedName : value)`. -/
def ComponentElement.attr (document : Document) (element : ComponentElement)
    (name value : String) : Except String ComponentElement :=
  let lowercasedName := document.toLowerCase name
  let isBooleanAttr := booleanAttributes.contains lowercasedName
  element.setAttribute document name (if isBooleanAttr then lowercasedName else value)

/-- One call `$compile(element)(scope)`: the element as it was then, the `$id` of the
scope, and whether that scope had been destroyed already. -/
structure Compilation where
  element : ComponentElement
  scopeId : Nat
  scopeDestroyed : Bool

/-- An instance of a registered custom element. `attributes`, `componentElementWrapper`
and `componentElementTransclude` are what the page gives it: the names of its own
attributes, the children of its `custom-element-component` element and the markup of its
`custom-element-transclude` element (`none` when there is no such element). `handlers`
are the functions `connectedCallback` stores in `$scope[event]`, kept apart from the data
properties of the scope. -/
structure CustomElement where
  definition : CustomElementClass
  scopeId : Nat
  scope : Scope
  handlers : List (String × EventHandler)
  attributes : List String
  componentElementWrapper : Option (List ComponentElement)
  componentElementTransclude : Option String
  componentElement : Option ComponentElement
  compiled : List Compilation

/-- The constructor of source lines 335-342, `self.$scope = $rootScope.$new()`, for an
element the page creates with the given attributes and content. -/
def construct (root : RootScope) (definition : CustomElementClass) (attributes : List String)
    (componentElementWrapper : Option (List ComponentElement))
    (componentElementTransclude : Option String) : RootScope × CustomElement :=
  (root.new.1,
    { definition := definition
      scopeId := root.new.2.1
      scope := root.new.2.2
      handlers := []
      attributes := attributes
      componentElementWrapper := componentElementWrapper
      componentElementTransclude := componentElementTransclude
      componentElement := none
      compiled := [] })

/-- The strings of an array of strings (`create` has checked `attrs` and `interpolations`
to be such arrays); nothing for any other value. -/
def stringItems : JSVal → List String
  | .arr items => items.filterMap fun
    | .str s => some s
    | _ => none
  | _ => []

/-- The string a string value holds (`create` has checked the `attr` and the `attrValue`
of a custom binding to be strings). -/
def stringValue : JSVal → String
  | .str s => s
  | _ => ""

/-- The test `self.hasAttribute(name)` on the outer element, whose attribute names are
`outer`: an HTML element looks the lower-cased name up. -/
def hasAttribute (outer : List String) (name : String) : Bool :=
  outer.contains (asciiLowerCase name)

/-- Where `connectedCallback` stands while it wires the inner element: the handlers it has
stored in `$scope`, the inner element, and the error thrown, after which nothing more
of the callback runs. -/
structure Wiring where
  handlers : List (String × EventHandler)
  element : ComponentElement
  error : Option String

/-- The statement `self.componentElement.attr(name, value)`, when it is reached. -/
def Wiring.attr (document : Document) (wiring : Wiring) (name value : String) : Wiring :=
  match wiring.error with
  | some _ => wiring
  | none =>
    match wiring.element.attr document name value with
    | .ok element => { wiring with element := element }
    | .error e => { wiring with error := some e }

/-- The section ATTRIBUTES of `connectedCallback` (source lines 375-382). -/
def replicateAttributes (document : Document) (attrs : JSVal) (outer : List String)
    (wiring : Wiring) : Wiring :=
  if attrs.truthy then
    (stringItems attrs).foldl
      (fun wiring attr =>
        if hasAttribute outer attr then wiring.attr document attr "" else wiring)
      wiring
  else wiring

/-- The section INTERPOLATIONS of `connectedCallback` (source lines 386-391). -/
def addInterpolations (env : Env) (document : Document) (interpolations : JSVal)
    (wiring : Wiring) : Wiring :=
  if interpolations.truthy then
    (stringItems interpolations).foldl
      (fun wiring interpolation =>
        wiring.attr document (env.kebabCase interpolation)
          ("\x7b\x7b " ++ interpolation ++ " \x7d\x7d"))
      wiring
  else wiring

/-- The section BINDINGS of `connectedCallback` (source lines 395-400). -/
def addBindings (env : Env) (document : Document) (bindings : JSVal) (wiring : Wiring) :
    Wiring :=
  if bindings.truthy then
    bindings.keys.foldl
      (fun wiring binding => wiring.attr document (env.kebabCase binding) binding) wiring
  else wiring

/-- The section CUSTOM BINDINGS of `connectedCallback` (source lines 404-410). -/
def addCustomBindings (document : Document) (customBindings : JSVal) (wiring : Wiring) :
    Wiring :=
  if customBindings.truthy then
    customBindings.keys.foldl
      (fun wiring binding =>
        wiring.attr document (stringValue ((customBindings.getProp binding).getProp "attr"))
          (stringValue ((customBindings.getProp binding).getProp "attrValue")))
      wiring
  else wiring

/-- The attribute value `event + '(' + injectables.join(', ') + ')'`. -/
def eventExpression (event : String) (injectables : List String) : String :=
  event ++ "(" ++ ", ".intercalate injectables ++ ")"

/-- The section EVENTS of `connectedCallback` (source lines 414-441): for each event a
handler in `$scope[event]`, then an attribute on the inner element. -/
def addEvents (env : Env) (document : Document) (events : JSVal) (wiring : Wiring) : Wiring :=
  if events.truthy then
    events.keys.foldl
      (fun wiring event =>
        match wiring.error with
        | some _ => wiring
        | none =>
          Wiring.attr document
            { wiring with handlers := setProp event (eventHandler events event) wiring.handlers }
            (env.kebabCase event)
            (eventExpression event (eventHandler events event).injectables))
      wiring
  else wiring

/-- What a lifecycle callback leaves behind: the element, and the error it threw, if any. -/
structure CallbackResult where
  element : CustomElement
  error : Option String

/-- The part of `connectedCallback` from the transclusion to the events (source lines
368-441), on the inner element just created. -/
def wireComponentElement (env : Env) (document : Document) (self : CustomElement)
    (created : ComponentElement) : Wiring :=
  let transcluded : ComponentElement :=
    match self.componentElementTransclude with
    | some markup => { created with innerHTML := markup }
    | none => created
  addEvents env document self.definition.events
    (addCustomBindings document self.definition.customBindings
      (addBindings env document self.definition.bindings
        (addInterpolations env document self.definition.interpolations
          (replicateAttributes document self.definition.attrs self.attributes
            { handlers := self.handlers, element := transcluded, error := none }))))

/-- The function `connectedCallback` of source lines 354-447. -/
def connectedCallback (env : Env) (document : Document) (self : CustomElement) :
    CallbackResult :=
  match self.componentElementWrapper with
  | none =>
    { element := self, error := some "`custom-element-component` element should be defined" }
  | some children =>
    match createElement document self.definition.componentName with
    | .error e => { element := self, error := some e }
    | .ok created =>
      let wired := wireComponentElement env document self created
      match wired.error with
      | some e =>
        { element :=
            { self with componentElement := some wired.element, handlers := wired.handlers }
          error := some e }
      | none =>
        { element :=
            { self with
              componentElement := some wired.element
              handlers := wired.handlers
              compiled := self.compiled ++
                [{ element := wired.element, scopeId := self.scopeId,
                   scopeDestroyed := self.scope.destroyed }]
              componentElementWrapper := some (children ++ [wired.element]) }
          error := none }

/-- The function `disconnectedCallback` of source lines 453-455: `this.$scope.$destroy()`. -/
def disconnectedCallback (self : CustomElement) : CustomElement :=
  { self with scope := { self.scope with destroyed := true } }

/-- The function `service.encode.identity` of source line 87. -/
def encode.identity : FnRef := .identity

/-- The attributes the specification derives from a wrapper: the plain attributes the
outer element has, with an empty value; then each interpolation, each binding, each
custom binding and each event, as name and value, in this order. -/
def derivedAttributes (env : Env) (definition : CustomElementClass) (outer : List String) :
    List (String × String) :=
  ((stringItems definition.attrs).filter (hasAttribute outer)).map (fun attr => (attr, "")) ++
    (stringItems definition.interpolations).map
      (fun p => (env.kebabCase p, "\x7b\x7b " ++ p ++ " \x7d\x7d")) ++
    definition.bindings.keys.map (fun b => (env.kebabCase b, b)) ++
    definition.customBindings.keys.map
      (fun b =>
        (stringValue ((definition.customBindings.getProp b).getProp "attr"),
          stringValue ((definition.customBindings.getProp b).getProp "attrValue"))) ++
    definition.events.keys.map
      (fun e => (env.kebabCase e, eventExpression e (definition.events.getProp e).keys))

/-- What jqLite and the document make of an attribute given as name and value: the name
in lower case, and as value the lower-cased name when that is a boolean attribute of
jqLite, the value given otherwise. -/
def written (document : Document) (write : String × String) : String × String :=
  (asciiLowerCase write.1,
    if booleanAttributes.contains (document.toLowerCase write.1) then
      document.toLowerCase write.1
    else write.2)

/-- Setting attributes one after the other on an element that has none: a later one
overwrites an earlier one of the same name. -/
def applyAttributes (writes : List (String × String)) : List (String × String) :=
  writes.foldl (fun attributes write => setProp write.1 write.2 attributes) []

/-- The attribute writes of a list, made one after the other by `Wiring.attr`. -/
def Wiring.setAll (document : Document) (writes : List (String × String)) (wiring : Wiring) :
    Wiring :=
  writes.foldl (fun wiring write => wiring.attr document write.1 write.2) wiring

/-! ## Sample data -/

/-- An environment whose caller-supplied functions all return `undefined`, whose case
functions change nothing, and which knows every component and accepts every tag name. -/
def sampleEnv : Env :=
  { call := fun _ _ => .ok .undefined
    camelCase := fun s => s
    kebabCase := fun s => s
    injectorHas := fun _ => true
    validTagName := fun _ => true }

/-- A fresh scope without data. -/
def emptyScope : Scope :=
  { own := [], parent := [], evalAsyncRequests := 0, destroyed := false }

/-- The closure of `service.decode.integer`. -/
def integerDecoder : Decoder :=
  { assert := .isInteger
    type := "integer"
    valueTransformation := none
    equalityCheck := .isEqual
    nullValue := .undefined }

/-- The setter `service.decode.integer('selectedYear').set`. -/
def selectedYearSetter : Setter :=
  { decoder := integerDecoder, bindingName := "selectedYear" }

/-- Decode options with a configured `nullValue`. -/
def yearOrZeroOptions : JSVal :=
  .obj [("assert", .fn .isInteger), ("type", .str "integer"), ("nullValue", .num 0)]

/-- The closure `decode` builds from `yearOrZeroOptions`. -/
def yearOrZeroDecoder : Decoder :=
  { assert := .isInteger
    type := "integer"
    valueTransformation := none
    equalityCheck := .isEqual
    nullValue := .num 0 }

/-- Decode options whose equality check never answers `true` for an integer. -/
def neverEqualOptions : JSVal :=
  .obj [("assert", .fn .isInteger), ("type", .str "integer"), ("equalityCheck", .fn .isString)]

/-- The closure `decode` builds from `neverEqualOptions`. -/
def neverEqualDecoder : Decoder :=
  { assert := .isInteger
    type := "integer"
    valueTransformation := none
    equalityCheck := .isString
    nullValue := .undefined }

/-- A scope that already holds a year. -/
def yearScope : Scope :=
  { own := [("selectedYear", .num 1999)], parent := [], evalAsyncRequests := 0, destroyed := false }

/-- The `events` option `{onDismiss: {reason: encode.identity}}`. -/
def dismissEvents : JSVal :=
  .obj [("onDismiss", .obj [("reason", .fn .identity)])]

/-- The `events` option `{onChange: {model: encode.identity, init: encode.identity}}`. -/
def changeEvents : JSVal :=
  .obj [("onChange", .obj [("model", .fn .identity), ("init", .fn .identity)])]

/-- The service before any component is registered, on a page without custom elements. -/
def emptyService : Service :=
  { customElements := [], defined := [] }

/-- The `bindings` declaration `{selectedYear: 5}`, neither a function nor an object. -/
def malformedBindingOptions : JSVal :=
  .obj [("bindings", .obj [("selectedYear", .num 5)])]

/-- The `bindings` declaration `{selectedYear: {set: f}}` for a caller-supplied `f`. -/
def literalBindingOptions : JSVal :=
  .obj [("bindings", .obj [("selectedYear", .obj [("set", .fn (.user 0))])])]

/-- Options whose `attrs` is a string instead of an array of strings. -/
def malformedAttrsOptions : JSVal :=
  .obj [("attrs", .str "required")]

/-- A resolved descriptor `{set: f, enumerable: true}`. -/
def enumerableSetter : JSVal :=
  .obj [("set", .fn (.user 0)), ("enumerable", .bool true)]

/-- The `bindings` declaration `{selectedYear: {set: f, enumerable: true}}`. -/
def enumerableSetterOptions : JSVal :=
  .obj [("bindings", .obj [("selectedYear", enumerableSetter)])]

/-- The message of `hasGetterOrSetter` for a binding name. -/
def getterOrSetterMessage (bindingName : String) : String :=
  "Binding \"" ++ bindingName ++ "\" should be have either setter or getter or both"

/-- The key lists `hasGetterOrSetter` accepts. -/
def getSetKeyLists : List (List String) :=
  [["set", "get"], ["get", "set"], ["get"], ["set"]]

/-- A document that accepts the ASCII names of the XML `Name` production, with the lower
case of ASCII strings. -/
def sampleDocument : Document :=
  { validName := fun name =>
      match name.data with
      | [] => false
      | c :: cs =>
        (c.isAlpha || c == '_' || c == ':') &&
          cs.all fun c => c.isAlphanum || c == '-' || c == '_' || c == '.' || c == ':'
    toLowerCase := asciiLowerCase }

/-- An environment like `sampleEnv` whose `_.kebabCase` knows the names of the examples. -/
def kebabEnv : Env :=
  { sampleEnv with
    kebabCase := fun s =>
      if s = "selectedYear" then "selected-year"
      else if s = "apiUrl" then "api-url"
      else if s = "onChange" then "on-change"
      else s }

/-- A root scope without data that has handed out no scope yet. -/
def sampleRoot : RootScope :=
  { props := [], nextId := 0 }

/-- Options with one declaration of each kind, after the example of the source. -/
def pickerOptions : JSVal :=
  .obj
    [ ("attrs", .arr [.str "required", .str "change-year"]),
      ("interpolations", .arr [.str "apiUrl"]),
      ("bindings", .obj [("selectedYear", .obj [("set", .fn (.user 0))])]),
      ("customBindings",
        .obj
          [("customBinding",
            .obj
              [ ("attr", .str "custom-attribute"),
                ("attrValue", .str "\x7b\x7b someCustomValue \x7d\x7d"),
                ("decode", .obj [("set", .fn (.user 1))]) ])]),
      ("events", changeEvents) ]

/-- The class `create('date-picker', pickerOptions)` registers. -/
def pickerClass : CustomElementClass :=
  ((create kebabEnv emptyService "date-picker" pickerOptions).service.customElements.lookup
    "date-picker").get rfl

/-- A new `custom-date-picker` element with the attribute `required`, a mounting element
and a transclusion element. -/
def pickerElement : CustomElement :=
  (construct sampleRoot pickerClass ["required"] (some []) (some "<b>2024</b>")).2

/-- A new `custom-date-picker` element without a mounting element. -/
def unmountedElement : CustomElement :=
  (construct sampleRoot pickerClass ["required"] none none).2

/-- The element `pickerElement` after it was connected, disconnected and connected again. -/
def reconnectedElement : CallbackResult :=
  connectedCallback kebabEnv sampleDocument
    (disconnectedCallback (connectedCallback kebabEnv sampleDocument pickerElement).element)

/-- Decode options whose `equalityCheck` is `false`. -/
def falseEqualityCheckOptions : JSVal :=
  .obj [("assert", .fn .isInteger), ("type", .str "integer"), ("equalityCheck", .bool false)]

/-! ## Lemmas on property lists and on `decode` -/

theorem lookup_setProp_self (k : String) (v : JSVal) (l : Props) :
    (setProp k v l).lookup k = some v := by
  induction l with
  | nil => simp [setProp, List.lookup]
  | cons hd tl ih =>
    obtain ⟨k', v'⟩ := hd
    by_cases h : k' = k
    · simp [setProp, h, List.lookup]
    · have h' : (k == k') = false := by simpa using fun e => h e.symm
      simp [setProp, h, List.lookup, h', ih]

theorem lookup_setProp_other (k k' : String) (v : JSVal) (l : Props) (hk : k' ≠ k) :
    (setProp k v l).lookup k' = l.lookup k' := by
  induction l with
  | nil =>
    have h' : (k' == k) = false := by simpa using hk
    simp [setProp, List.lookup, h']
  | cons hd tl ih =>
    obtain ⟨k₁, v₁⟩ := hd
    by_cases h : k₁ = k
    · subst h
      have h' : (k' == k₁) = false := by simpa using hk
      simp [setProp, List.lookup, h']
    · simp only [setProp, h, if_false, List.lookup]
      cases (k' == k₁) <;> simp [ih]

/-- What an accepted `options` object says about the closure `decode` builds. -/
theorem decode_ok (options : JSVal) (d : Decoder) (hd : decode options = .ok d) :
    options.getProp "assert" = .fn d.assert ∧
    options.getProp "type" = .str d.type ∧
    d.nullValue =
      (if options.hasOwnProperty "nullValue" then options.getProp "nullValue"
        else .undefined) ∧
    ((options.getProp "equalityCheck").truthy = true →
      options.getProp "equalityCheck" = .fn d.equalityCheck) ∧
    ((options.getProp "equalityCheck").truthy = false → d.equalityCheck = .isEqual) ∧
    (∀ t, options.getProp "valueTransformation" = .fn t → d.valueTransformation = some t) ∧
    (options.getProp "valueTransformation" = .undefined → d.valueTransformation = none) := by
  unfold decode at hd
  split at hd
  · cases hd
  · cases hd
  · simp only at hd
    split at hd
    · cases hd
    · split at hd
      · rename_i eq heq
        split at hd
        · rename_i assertion hassert
          split at hd
          · rename_i type htype
            cases hd
            refine ⟨hassert, htype, rfl, ?_, ?_, ?_, ?_⟩
            · intro ht
              simpa [ht] using heq
            · intro ht
              simp [ht] at heq
              exact heq.symm
            · intro t ht
              simp [ht]
            · intro ht
              simp [ht]
          · cases hd
        · cases hd
      · cases hd

theorem apply_ok (d : Decoder) (name : String) (s : Setter)
    (hs : d.apply (.str name) = .ok s) : s = { decoder := d, bindingName := name } := by
  simp only [Decoder.apply] at hs
  cases hs
  rfl

theorem set_of_ne_null (env : Env) (s : Setter) (scope : Scope) (value : JSVal)
    (hnull : value ≠ .null) :
    s.set env scope value =
      match callFn env s.decoder.assert [value] with
      | .error e => { scope := scope, invoked := [.assert value], error := some e }
      | .ok passed =>
        if passed.truthy then
          match s.newValue env value with
          | .error e =>
            { scope := scope
              invoked := .assert value :: s.newValueCalls value
              error := some e }
          | .ok newValue =>
            match callFn env s.decoder.equalityCheck [newValue, scope.get s.bindingName] with
            | .error e =>
              { scope := scope
                invoked := .assert value :: s.newValueCalls value ++
                  [.equalityCheck newValue (scope.get s.bindingName)]
                error := some e }
            | .ok (.bool false) =>
              { scope := digestChanges true (scope.assign s.bindingName newValue)
                invoked := .assert value :: s.newValueCalls value ++
                  [.equalityCheck newValue (scope.get s.bindingName)]
                error := none }
            | .ok _ =>
              { scope := digestChanges false scope
                invoked := .assert value :: s.newValueCalls value ++
                  [.equalityCheck newValue (scope.get s.bindingName)]
                error := none }
        else
          { scope := scope
            invoked := [.assert value]
            error :=
              some ("Expected a " ++ s.decoder.type ++ " or null, but got " ++ value.typeof) } := by
  cases value <;> first | rfl | exact absurd rfl hnull

theorem set_accepted (env : Env) (s : Setter) (scope : Scope) (value : JSVal)
    (hnull : value ≠ .null) (r : JSVal) (hassert : callFn env s.decoder.assert [value] = .ok r)
    (hpass : r.truthy = true) (newValue : JSVal) (hnew : s.newValue env value = .ok newValue)
    (e : JSVal)
    (heq : callFn env s.decoder.equalityCheck [newValue, scope.get s.bindingName] = .ok e) :
    (e = .bool false →
        s.set env scope value =
          { scope := digestChanges true (scope.assign s.bindingName newValue)
            invoked := .assert value :: s.newValueCalls value ++
              [.equalityCheck newValue (scope.get s.bindingName)]
            error := none }) ∧
      (e ≠ .bool false →
        s.set env scope value =
          { scope := scope
            invoked := .assert value :: s.newValueCalls value ++
              [.equalityCheck newValue (scope.get s.bindingName)]
            error := none }) := by
  rw [set_of_ne_null env s scope value hnull]
  simp only [hassert, hpass, if_true, hnew, heq]
  constructor
  · intro he
    subst he
    rfl
  · intro he
    cases e with
    | bool b =>
      cases b
      · exact absurd rfl he
      · rfl
    | _ => rfl

/-! ## The setter of a decoder -/

/-- C1. For every options object `decode` accepts, every binding name and every scope,
the setter called with `null` assigns `nullValue` to `scope[bindingName]` (the own
`nullValue` property of the options, `undefined` when there is none), requests one
`$evalAsync`, throws nothing, and calls neither the assertion nor the value
transformation nor the equality check. -/
theorem set_null_assigns_nullValue_and_digests (env : Env) (options : JSVal) (d : Decoder)
    (hd : decode options = .ok d) (name : String) (s : Setter)
    (hs : d.apply (.str name) = .ok s) (scope : Scope) :
    d.nullValue =
        (if options.hasOwnProperty "nullValue" then options.getProp "nullValue"
          else .undefined) ∧
      s.set env scope .null =
        { scope :=
            { scope with
              own := setProp name d.nullValue scope.own
              evalAsyncRequests := scope.evalAsyncRequests + 1 }
          invoked := []
          error := none } ∧
      (s.set env scope .null).scope.get name = d.nullValue := by
  have hs' := apply_ok d name s hs
  subst hs'
  refine ⟨(decode_ok options d hd).2.2.1, rfl, ?_⟩
  simp [Setter.set, digestChanges, Scope.evalAsync, Scope.assign, Scope.get, lookup_setProp_self]

/-- Witness for C1: a decoder with `nullValue: 0` on a scope that holds 1999. -/
theorem set_null_assigns_nullValue_and_digests_witness :
    yearOrZeroDecoder.nullValue = JSVal.num 0 ∧
      (({ decoder := yearOrZeroDecoder, bindingName := "selectedYear" } : Setter).set
          sampleEnv yearScope .null).scope.get "selectedYear" = JSVal.num 0 := by
  have h := set_null_assigns_nullValue_and_digests sampleEnv yearOrZeroOptions yearOrZeroDecoder
    rfl "selectedYear" { decoder := yearOrZeroDecoder, bindingName := "selectedYear" } rfl
    yearScope
  exact ⟨rfl, h.2.2⟩

/-- C2. For every accepted options object and every non-null value on which the
assertion of the options returns a falsy result, the setter throws
`'Expected a ' + options.type + ' or null, but got ' + typeof value`, leaves the scope
as it was (no assignment, no `$evalAsync`), and has called the assertion only. -/
theorem set_type_mismatch_throws (env : Env) (options : JSVal) (d : Decoder)
    (hd : decode options = .ok d) (name : String) (s : Setter)
    (hs : d.apply (.str name) = .ok s) (scope : Scope) (value : JSVal)
    (hnull : value ≠ .null) (r : JSVal) (hassert : callFn env d.assert [value] = .ok r)
    (hfail : r.truthy = false) :
    options.getProp "assert" = .fn d.assert ∧
      options.getProp "type" = .str d.type ∧
      s.set env scope value =
        { scope := scope
          invoked := [.assert value]
          error := some ("Expected a " ++ d.type ++ " or null, but got " ++ value.typeof) } := by
  have hs' := apply_ok d name s hs
  subst hs'
  refine ⟨(decode_ok options d hd).1, (decode_ok options d hd).2.1, ?_⟩
  rw [set_of_ne_null env _ scope value hnull]
  simp [hassert, hfail]

/-- Witness for C2: `service.decode.integer` given the string `"2024"`. -/
theorem set_type_mismatch_throws_witness :
    (selectedYearSetter.set sampleEnv yearScope (.str "2024")).error =
        some "Expected a integer or null, but got string" ∧
      (selectedYearSetter.set sampleEnv yearScope (.str "2024")).scope = yearScope := by
  have h := set_type_mismatch_throws sampleEnv decode.integerOptions integerDecoder rfl
    "selectedYear" selectedYearSetter rfl yearScope (.str "2024") (fun e => by cases e)
    (.bool false) rfl rfl
  exact ⟨by rw [h.2.2]; rfl, by rw [h.2.2]⟩

/-- C3. For every accepted options object and every non-null value on which the
assertion returns a truthy result: with `newValue` the transformed value (the value
itself when no transformation is configured) and `e` the answer of the equality check
on `newValue` and the previous `scope[bindingName]` (deep equality `_.isEqual` when the
options name none), the setter assigns `newValue` to `scope[bindingName]` and requests
one `$evalAsync` when `e` is `false`, and leaves the scope as it was when `e` is
anything else; it throws in neither case and no other property of the scope changes. -/
theorem set_accepted_value (env : Env) (options : JSVal) (d : Decoder)
    (hd : decode options = .ok d) (name : String) (s : Setter)
    (hs : d.apply (.str name) = .ok s) (scope : Scope) (value : JSVal)
    (hnull : value ≠ .null) (r : JSVal) (hassert : callFn env d.assert [value] = .ok r)
    (hpass : r.truthy = true) (newValue : JSVal) (hnew : s.newValue env value = .ok newValue)
    (e : JSVal) (heq : callFn env d.equalityCheck [newValue, scope.get name] = .ok e) :
    (d.valueTransformation = none → newValue = value) ∧
      (∀ t, d.valueTransformation = some t → callFn env t [value] = .ok newValue) ∧
      ((options.getProp "equalityCheck").truthy = false → d.equalityCheck = .isEqual) ∧
      (s.set env scope value).error = none ∧
      (e = .bool false →
        (s.set env scope value).scope =
            { scope with
              own := setProp name newValue scope.own
              evalAsyncRequests := scope.evalAsyncRequests + 1 } ∧
          (s.set env scope value).scope.get name = newValue) ∧
      (e ≠ .bool false → (s.set env scope value).scope = scope) ∧
      (∀ k, k ≠ name → (s.set env scope value).scope.get k = scope.get k) := by
  have hs' := apply_ok d name s hs
  subst hs'
  obtain ⟨hchanged, hkept⟩ := set_accepted env { decoder := d, bindingName := name } scope value
    hnull r hassert hpass newValue hnew e heq
  refine ⟨?_, ?_, (decode_ok options d hd).2.2.2.2.1, ?_, ?_, ?_, ?_⟩
  · intro hnone
    simp only [Setter.newValue, hnone] at hnew
    cases hnew
    rfl
  · intro t ht
    simpa only [Setter.newValue, ht] using hnew
  · by_cases he : e = .bool false
    · rw [hchanged he]
    · rw [hkept he]
  · intro he
    rw [hchanged he]
    exact ⟨rfl, by
      simp [digestChanges, Scope.evalAsync, Scope.assign, Scope.get, lookup_setProp_self]⟩
  · intro he
    rw [hkept he]
  · intro k hk
    by_cases he : e = .bool false
    · rw [hchanged he]
      simp [digestChanges, Scope.evalAsync, Scope.assign, Scope.get,
        lookup_setProp_other name k _ _ hk]
    · rw [hkept he]

/-- Witness for C3: `service.decode.integer` given 2024 on a scope that holds 1999. -/
theorem set_accepted_value_witness :
    (selectedYearSetter.set sampleEnv yearScope (.num 2024)).scope =
      { yearScope with own := [("selectedYear", .num 2024)], evalAsyncRequests := 1 } := by
  have h := set_accepted_value sampleEnv decode.integerOptions integerDecoder rfl
    "selectedYear" selectedYearSetter rfl yearScope (.num 2024) (fun e => by cases e)
    (.bool true) rfl rfl (.num 2024) rfl (.bool false) rfl
  exact (h.2.2.2.2.1 rfl).1

/-- C4, as stated, fails: setting `null` twice through `service.decode.integer` requests
an `$evalAsync` on the second call too, and so does setting 2024 twice through a decoder
whose equality check never reports two integers equal. -/
theorem set_twice_digests_twice :
    (selectedYearSetter.set sampleEnv
          (selectedYearSetter.set sampleEnv emptyScope .null).scope .null).scope.evalAsyncRequests =
        (selectedYearSetter.set sampleEnv emptyScope .null).scope.evalAsyncRequests + 1 ∧
      decode neverEqualOptions = .ok neverEqualDecoder ∧
      (({ decoder := neverEqualDecoder, bindingName := "selectedYear" } : Setter).set sampleEnv
          (({ decoder := neverEqualDecoder, bindingName := "selectedYear" } : Setter).set
            sampleEnv emptyScope (.num 2024)).scope (.num 2024)).scope.evalAsyncRequests =
        (({ decoder := neverEqualDecoder, bindingName := "selectedYear" } : Setter).set
            sampleEnv emptyScope (.num 2024)).scope.evalAsyncRequests + 1 := by
  refine ⟨rfl, rfl, rfl⟩

/-- C4, amended. For every accepted options object and every non-null value that the
assertion accepts and whose transformed value the equality check does not report
unequal to itself (as the default deep equality does for an integer), two calls of the
setter with that value in a row both return normally and the second one leaves the
scope as the first one left it: no assignment and no further `$evalAsync`; the first
call requests an `$evalAsync` exactly when the equality check answers `false` for the
transformed value and the previous scope value. -/
theorem set_same_value_twice (env : Env) (options : JSVal) (d : Decoder)
    (_hd : decode options = .ok d) (name : String) (s : Setter)
    (hs : d.apply (.str name) = .ok s) (scope : Scope) (value : JSVal)
    (hnull : value ≠ .null) (r : JSVal) (hassert : callFn env d.assert [value] = .ok r)
    (hpass : r.truthy = true) (newValue : JSVal) (hnew : s.newValue env value = .ok newValue)
    (e : JSVal) (heq : callFn env d.equalityCheck [newValue, scope.get name] = .ok e)
    (e' : JSVal) (hrefl : callFn env d.equalityCheck [newValue, newValue] = .ok e')
    (hsame : e' ≠ .bool false) :
    (s.set env scope value).error = none ∧
      (s.set env (s.set env scope value).scope value).error = none ∧
      (s.set env (s.set env scope value).scope value).scope = (s.set env scope value).scope ∧
      (e = .bool false →
        (s.set env scope value).scope.evalAsyncRequests = scope.evalAsyncRequests + 1) ∧
      (e ≠ .bool false →
        (s.set env scope value).scope.evalAsyncRequests = scope.evalAsyncRequests) := by
  have hs' := apply_ok d name s hs
  subst hs'
  obtain ⟨hchanged, hkept⟩ := set_accepted env { decoder := d, bindingName := name } scope value
    hnull r hassert hpass newValue hnew e heq
  by_cases he : e = .bool false
  · have h₁ := hchanged he
    have hget : (digestChanges true (scope.assign name newValue)).get name = newValue := by
      simp [digestChanges, Scope.evalAsync, Scope.assign, Scope.get, lookup_setProp_self]
    have h₂ := (set_accepted env { decoder := d, bindingName := name }
      (digestChanges true (scope.assign name newValue)) value hnull r hassert hpass newValue
      hnew e' (by rw [hget]; exact hrefl)).2 hsame
    have hscope : (Setter.set env { decoder := d, bindingName := name } scope value).scope =
        digestChanges true (scope.assign name newValue) := by rw [h₁]
    refine ⟨by rw [h₁], ?_, ?_, fun _ => by rw [hscope]; rfl, fun h => absurd he h⟩
    · rw [hscope, h₂]
    · rw [hscope, h₂]
  · have h₁ := hkept he
    have hscope : (Setter.set env { decoder := d, bindingName := name } scope value).scope =
        scope := by rw [h₁]
    refine ⟨by rw [h₁], ?_, ?_, fun h => absurd h he, fun _ => by rw [hscope]⟩
    · rw [hscope, h₁]
    · rw [hscope, h₁]

/-- Witness for C4: on a fresh scope, `service.decode.integer('selectedYear')` given 2024
stores 2024 and requests one `$evalAsync`; given 2024 again it changes nothing; given
`null` it resets the property to `undefined`, the null default of the integer decoder. -/
theorem set_same_value_twice_witness :
    decode.integer = .ok integerDecoder ∧
      integerDecoder.apply (.str "selectedYear") = .ok selectedYearSetter ∧
      (selectedYearSetter.set sampleEnv emptyScope (.num 2024)).scope =
        { emptyScope with own := [("selectedYear", .num 2024)], evalAsyncRequests := 1 } ∧
      (selectedYearSetter.set sampleEnv
          (selectedYearSetter.set sampleEnv emptyScope (.num 2024)).scope (.num 2024)).scope =
        (selectedYearSetter.set sampleEnv emptyScope (.num 2024)).scope ∧
      (selectedYearSetter.set sampleEnv
          (selectedYearSetter.set sampleEnv emptyScope (.num 2024)).scope .null).scope =
        { emptyScope with own := [("selectedYear", .undefined)], evalAsyncRequests := 2 } := by
  have h := set_same_value_twice sampleEnv decode.integerOptions integerDecoder rfl
    "selectedYear" selectedYearSetter rfl emptyScope (.num 2024) (fun e => by cases e)
    (.bool true) rfl rfl (.num 2024) rfl (.bool false) rfl (.bool true) rfl
    (fun e => by cases e)
  exact ⟨rfl, rfl, rfl, h.2.2.1, rfl⟩

/-! ## The event handler -/

theorem setProp_new (k : String) (v : JSVal) (acc : Props) (h : k ∉ acc.map Prod.fst) :
    setProp k v acc = acc ++ [(k, v)] := by
  induction acc with
  | nil => rfl
  | cons hd tl ih =>
    obtain ⟨k', v'⟩ := hd
    simp only [List.map_cons, List.mem_cons, not_or] at h
    have hne : ¬ k' = k := fun e => h.1 e.symm
    simp [setProp, hne, ih h.2]

theorem setProp_last (k : String) (v w : JSVal) (acc : Props) (h : k ∉ acc.map Prod.fst) :
    setProp k w (acc ++ [(k, v)]) = acc ++ [(k, w)] := by
  induction acc with
  | nil => simp [setProp]
  | cons hd tl ih =>
    obtain ⟨k', v'⟩ := hd
    simp only [List.map_cons, List.mem_cons, not_or] at h
    have hne : ¬ k' = k := fun e => h.1 e.symm
    simp [setProp, hne, ih h.2]

theorem lookup_append_new (k : String) (v : JSVal) (done rest : Props)
    (h : k ∉ done.map Prod.fst) : (done ++ (k, v) :: rest).lookup k = some v := by
  induction done with
  | nil => simp [List.lookup]
  | cons hd tl ih =>
    obtain ⟨k', v'⟩ := hd
    simp only [List.map_cons, List.mem_cons, not_or] at h
    have hne : (k == k') = false := by simpa using h.1
    simp [List.lookup, hne, ih h.2]

theorem nullIfUndefined_ne_undefined (v : JSVal) : nullIfUndefined v ≠ .undefined := by
  cases v <;> simp [nullIfUndefined, isUndefined]

theorem encodeInjectable_ok (env : Env) (eventSpec : JSVal) (args : List JSVal) (acc : Props)
    (i : String) (index : Nat) (g : FnRef) (r : JSVal)
    (hfn : eventSpec.getProp i = .fn g)
    (hcall : callFn env g [args.getD index .undefined] = .ok r)
    (hnew : i ∉ acc.map Prod.fst) :
    encodeInjectable env eventSpec args acc i index = .ok (acc ++ [(i, nullIfUndefined r)]) := by
  simp only [encodeInjectable, hfn, hcall]
  by_cases hu : isUndefined r = true
  · simp [hu, nullIfUndefined, setProp_new i r acc hnew, setProp_last i r .null acc hnew]
  · simp [hu, nullIfUndefined, setProp_new i r acc hnew]

theorem reduceInjectables_ok (env : Env) (args : List JSVal) :
    ∀ (rest done acc : Props) (index : Nat),
      ((done ++ rest).map Prod.fst).Nodup → acc.map Prod.fst = done.map Prod.fst →
      index = done.length →
      (∀ j i f, rest[j]? = some (i, f) →
        ∃ g r, f = .fn g ∧ callFn env g [args.getD (index + j) .undefined] = .ok r) →
      ∃ out : Props,
        reduceInjectables env (.obj (done ++ rest)) args (rest.map Prod.fst) index acc =
            .ok (acc ++ out) ∧
          out.map Prod.fst = rest.map Prod.fst ∧
          ∀ j i g r, rest[j]? = some (i, .fn g) →
            callFn env g [args.getD (index + j) .undefined] = .ok r →
            out[j]? = some (i, nullIfUndefined r) := by
  intro rest
  induction rest with
  | nil =>
    intro done acc index _ _ _ _
    exact ⟨[], by simp [reduceInjectables], rfl, by simp⟩
  | cons hd tl ih =>
    intro done acc index hnodup hacc hindex hcalls
    obtain ⟨i, f⟩ := hd
    obtain ⟨g, r, hf, hcall⟩ := hcalls 0 i f (by simp)
    subst hf
    have hnotin : i ∉ done.map Prod.fst := by
      intro hmem
      rw [List.map_append, List.nodup_append] at hnodup
      exact hnodup.2.2 hmem (by simp)
    have hget : (JSVal.obj (done ++ (i, .fn g) :: tl)).getProp i = .fn g := by
      simp [JSVal.getProp, lookup_append_new i (.fn g) done tl hnotin]
    have hstep := encodeInjectable_ok env (.obj (done ++ (i, .fn g) :: tl)) args acc i index g r
      hget (by simpa using hcall) (by rw [hacc]; exact hnotin)
    have hassoc : done ++ (i, JSVal.fn g) :: tl = (done ++ [(i, JSVal.fn g)]) ++ tl := by simp
    obtain ⟨out, hout, hkeys, hvals⟩ := ih (done ++ [(i, .fn g)]) (acc ++ [(i, nullIfUndefined r)])
      (index + 1) (by rw [← hassoc]; exact hnodup) (by simp [hacc]) (by simp [hindex])
      (fun j i' f' hj => by
        have := hcalls (j + 1) i' f' (by simpa using hj)
        simpa [Nat.add_assoc, Nat.add_comm 1 j] using this)
    refine ⟨(i, nullIfUndefined r) :: out, ?_, by simp [hkeys], ?_⟩
    · simp only [List.map_cons, reduceInjectables, hstep]
      rw [hassoc, hout]
      simp
    · intro j i' g' r' hj hcall'
      cases j with
      | zero =>
        simp only [List.getElem?_cons_zero, Option.some.injEq, Prod.mk.injEq,
          JSVal.fn.injEq] at hj
        obtain ⟨hi, hg⟩ := hj
        subst hi hg
        have hr : r = r' := by
          have h1 : callFn env g [args.getD index .undefined] = .ok r := by simpa using hcall
          have h2 : callFn env g [args.getD index .undefined] = .ok r' := by simpa using hcall'
          rw [h1] at h2
          cases h2
          rfl
        simp [hr]
      | succ j =>
        simp only [List.getElem?_cons_succ] at hj ⊢
        exact hvals j i' g' r' hj (by simpa [Nat.add_assoc, Nat.add_comm 1 j] using hcall')

theorem lookup_of_getElem? (l : Props) (h : (l.map Prod.fst).Nodup) :
    ∀ (k : Nat) (i : String) (v : JSVal), l[k]? = some (i, v) → l.lookup i = some v := by
  induction l with
  | nil => intro k i v hk; simp at hk
  | cons hd tl ih =>
    intro k i v hk
    obtain ⟨i', v'⟩ := hd
    simp only [List.map_cons, List.nodup_cons] at h
    cases k with
    | zero =>
      simp only [List.getElem?_cons_zero, Option.some.injEq, Prod.mk.injEq] at hk
      obtain ⟨hi, hv⟩ := hk
      subst hi hv
      simp [List.lookup]
    | succ k =>
      simp only [List.getElem?_cons_succ] at hk
      have hmem : i ∈ tl.map Prod.fst :=
        List.mem_map.2 ⟨(i, v), List.getElem?_mem hk, rfl⟩
      have hne : (i == i') = false := by
        simp only [beq_eq_false_iff_ne, ne_eq]
        intro e
        exact h.1 (e ▸ hmem)
      simp [List.lookup, hne, ih h.2 k i v hk]

/-- C5. For every `events` object whose entry for `event` is an object with injectables
`i_1..i_n` (its keys, in order) and encode functions `f_1..f_n` that all return, every
invocation of the scope-level handler with positional arguments `a_1..a_m` throws
nothing and dispatches exactly one custom event; its name is the event key and its
detail is an object with exactly the keys `i_1..i_n`, in that order, where
`detail[i_k]` is `f_k(a_k)` when that is not `undefined` and `null` otherwise (`a_k` is
`undefined` for `k > m`); no value of the detail is `undefined`. -/
theorem handler_dispatches_one_encoded_event (env : Env) (events : JSVal) (event : String)
    (spec : Props) (args : List JSVal) (hspec : events.getProp event = .obj spec)
    (hkeys : (spec.map Prod.fst).Nodup)
    (hencode : ∀ k i f, spec[k]? = some (i, f) →
      ∃ g r, f = .fn g ∧ callFn env g [args.getD k .undefined] = .ok r) :
    ∃ detail : Props,
      (eventHandler events event).invoke env args =
          ([{ type := event, detail := .obj detail }], none) ∧
        detail.map Prod.fst = spec.map Prod.fst ∧
        (∀ k i g r, spec[k]? = some (i, .fn g) →
          callFn env g [args.getD k .undefined] = .ok r →
          detail[k]? = some (i, nullIfUndefined r) ∧
            (JSVal.obj detail).getProp i = nullIfUndefined r) ∧
        ∀ p ∈ detail, p.2 ≠ .undefined := by
  obtain ⟨out, hout, hk, hvals⟩ := reduceInjectables_ok env args spec [] [] 0
    (by simpa using hkeys) rfl rfl (fun j i f hj => by simpa using hencode j i f hj)
  have hpos : ∀ k i g r, spec[k]? = some (i, .fn g) →
      callFn env g [args.getD k .undefined] = .ok r → out[k]? = some (i, nullIfUndefined r) :=
    fun k i g r hj hc => hvals k i g r hj (by simpa using hc)
  refine ⟨out, ?_, hk, ?_, ?_⟩
  · simp only [List.nil_append] at hout
    simp [EventHandler.invoke, eventHandler, hspec, JSVal.keys, hout]
  · intro k i g r hj hc
    have hget := hpos k i g r hj hc
    refine ⟨hget, ?_⟩
    have hlook := lookup_of_getElem? out (by rw [hk]; exact hkeys) k i _ hget
    simp [JSVal.getProp, hlook]
  · intro p hp
    obtain ⟨k, hkp⟩ := List.getElem?_of_mem hp
    have hlen : out.length = spec.length := by
      simpa using congrArg List.length hk
    have hlt : k < spec.length := by
      rw [← hlen]
      exact (List.getElem?_eq_some.1 hkp).1
    obtain ⟨q, hq⟩ : ∃ q, spec[k]? = some q := ⟨spec[k], List.getElem?_eq_getElem hlt⟩
    obtain ⟨g, r, hf, hc⟩ := hencode k q.1 q.2 hq
    have hget := hpos k q.1 g r (by rw [hq, ← hf]) hc
    rw [hkp] at hget
    cases hget
    exact nullIfUndefined_ne_undefined r

/-- Witness for C5: `{onChange: {model: identity, init: identity}}` invoked with the one
argument `"my string"` dispatches `onChange` with detail `{model: "my string", init: null}`. -/
theorem handler_dispatches_one_encoded_event_witness :
    (eventHandler changeEvents "onChange").invoke sampleEnv [.str "my string"] =
      ([{ type := "onChange"
          detail := .obj [("model", .str "my string"), ("init", .null)] }], none) := by
  obtain ⟨detail, hinvoke, -, -, -⟩ := handler_dispatches_one_encoded_event sampleEnv
    changeEvents "onChange" [("model", .fn .identity), ("init", .fn .identity)]
    [.str "my string"] rfl (by decide) (fun k i f hk => by
      match k, hk with
      | 0, hk => exact ⟨.identity, .str "my string", by simp at hk; exact hk.2.symm, rfl⟩
      | 1, hk => exact ⟨.identity, .undefined, by simp at hk; exact hk.2.symm, rfl⟩
      | k + 2, hk => simp at hk)
  exact rfl

/-- C6, as stated, fails: for `events: {onDismiss: {reason: encode.identity}}` the handler
invoked with `"timeout"` dispatches one event and its name is `onDismiss`, the event key,
not `dismiss`. -/
theorem dismiss_event_is_named_onDismiss :
    ((eventHandler dismissEvents "onDismiss").invoke sampleEnv [.str "timeout"]).1.map
        (fun ev => (ev.type, decide (ev.type = "dismiss"))) =
      [("onDismiss", false)] := by
  rfl

/-- C6, amended. `create('alert-banner', {events: {onDismiss: {reason: encode.identity}}})`
registers the component with these events, and invoking the handler of `onDismiss` with the
argument `"timeout"` dispatches exactly one custom event, whose name is `onDismiss` and
whose detail is `{reason: "timeout"}`, and throws nothing. -/
theorem dismiss_event_round_trip :
    (create sampleEnv emptyService "alert-banner" (.obj [("events", dismissEvents)])).error =
        none ∧
      ((create sampleEnv emptyService "alert-banner"
          (.obj [("events", dismissEvents)])).service.customElements.lookup "alert-banner").map
          (fun c => c.events) = some dismissEvents ∧
      (eventHandler dismissEvents "onDismiss").invoke sampleEnv [.str "timeout"] =
        ([{ type := "onDismiss", detail := .obj [("reason", .str "timeout")] }], none) := by
  refine ⟨rfl, rfl, rfl⟩

/-! ## The registry -/

/-- C7. For every component name that is in the registry, `create` throws
`'Component with name ' + componentName + ' already registered'` whatever the options,
the injector and the page are, and leaves the registry and the defined custom elements
as they were. -/
theorem create_registered_name_fails (env : Env) (service : Service) (componentName : String)
    (options : JSVal) (h : (service.customElements.lookup componentName).isSome = true) :
    create env service componentName options =
      { service := service
        error := some ("Component with name " ++ componentName ++ " already registered") } := by
  simp [create, assertChecks, assert, h, bind, Except.bind]

/-- Witness for C7: `date-picker` registered, then registered again with other options. -/
theorem create_registered_name_fails_witness :
    (create sampleEnv (create sampleEnv emptyService "date-picker" .undefined).service
        "date-picker" literalBindingOptions).error =
      some "Component with name date-picker already registered" := by
  rw [create_registered_name_fails sampleEnv
    (create sampleEnv emptyService "date-picker" .undefined).service "date-picker"
    literalBindingOptions rfl]
  rfl

/-- C8 on the code: `create('date-picker', {bindings: {selectedYear: 5}})` on an empty
registry throws `'Value of binding should be a function or an object'`, defines no custom
element, and leaves `date-picker` in the registry; the same call with a well-formed
binding then throws `'Component with name date-picker already registered'`, although it
succeeds on the empty registry. -/
theorem create_failure_leaves_name_registered :
    (create sampleEnv emptyService "date-picker" malformedBindingOptions).error =
        some "Value of binding should be a function or an object" ∧
      (emptyService.customElements.lookup "date-picker").isSome = false ∧
      ((create sampleEnv emptyService "date-picker"
          malformedBindingOptions).service.customElements.lookup "date-picker").isSome = true ∧
      (create sampleEnv emptyService "date-picker"
          malformedBindingOptions).service.defined.map Prod.fst = [] ∧
      (create sampleEnv
          (create sampleEnv emptyService "date-picker" malformedBindingOptions).service
          "date-picker" literalBindingOptions).error =
        some "Component with name date-picker already registered" ∧
      (create sampleEnv emptyService "date-picker" literalBindingOptions).error = none ∧
      (create sampleEnv emptyService "date-picker" literalBindingOptions).service.defined.map
          Prod.fst = ["custom-date-picker"] := by
  refine ⟨rfl, rfl, rfl, rfl, rfl, rfl, rfl⟩

theorem assert_bind {α : Type} (assertion : Bool) (message : String)
    (k : Unit → Except String α) :
    (assert assertion message >>= k) = if !assertion then .error message else k () := by
  cases assertion <;> rfl

theorem assertChecks_unfold (env : Env) (service : Service) (componentName : String)
    (options : JSVal) :
    assertChecks env service componentName options =
      if (service.customElements.lookup componentName).isSome then
        .error ("Component with name " ++ componentName ++ " already registered")
      else if !hasComponent env componentName then
        .error ("There is no component defined for name: " ++ componentName)
      else if !Lodash.isPlainObject options then .error "Options should be an object"
      else if !stringsOrAbsent options "attrs" then
        .error "Options attributes should be an array of strings"
      else if !stringsOrAbsent options "interpolations" then
        .error "Options interpolations should be an array of strings"
      else if !objectOrAbsent options "bindings" then
        .error "Options bindings should be an object"
      else if !objectOrAbsent options "customBindings" then
        .error "Options custom bindings should be an object"
      else if !objectOrAbsent options "events" then
        .error "Options events should be an object"
      else if (options.getProp "events").truthy then
        checkEvents (options.getProp "events") (options.getProp "events").keys
      else .ok () := by
  simp only [assertChecks, assert_bind, hasComponent, stringsOrAbsent, objectOrAbsent]
  cases (service.customElements.lookup componentName).isSome <;> simp

theorem create_of_assertChecks_error (env : Env) (service : Service) (componentName : String)
    (options : JSVal) (message : String)
    (h : assertChecks env service componentName
      (if options.truthy then options else .obj []) = .error message) :
    create env service componentName options =
      { service := service, error := some message } := by
  simp only [create, h]

theorem getProp_normalized (options : JSVal) (key : String) (h : optionsAccepted options = true) :
    (if options.truthy then options else JSVal.obj []).getProp key = options.getProp key := by
  cases options <;> simp_all [optionsAccepted, JSVal.truthy, JSVal.getProp, Lodash.isPlainObject]

theorem checkEvents_ok (events : JSVal) (keys : List String)
    (h : ∀ event ∈ keys,
      Lodash.isPlainObject (events.getProp event) = true ∧
        allFunctions (events.getProp event) = true) :
    checkEvents events keys = .ok () := by
  induction keys with
  | nil => rfl
  | cons event rest ih =>
    have h₀ := h event (by simp)
    simp only [allFunctions] at h₀
    simp only [checkEvents, assert_bind, h₀.1, h₀.2]
    exact ih (fun e he => h e (by simp [he]))

theorem checkEvents_error (events : JSVal) (keys : List String) (message : String)
    (h : checkEvents events keys = .error message) :
    (message = "Value of event should be an object with injectables" ∧
        ∃ event ∈ keys, Lodash.isPlainObject (events.getProp event) = false) ∨
      (message = "Value of injectable should be a function" ∧
        ∃ event ∈ keys, Lodash.isPlainObject (events.getProp event) = true ∧
          allFunctions (events.getProp event) = false) := by
  induction keys with
  | nil => simp [checkEvents] at h
  | cons event rest ih =>
    simp only [checkEvents, assert_bind] at h
    by_cases hplain : Lodash.isPlainObject (events.getProp event) = true
    · by_cases hfns : allFunctions (events.getProp event) = true
      · simp only [allFunctions] at hfns
        simp only [hplain, hfns] at h
        rcases ih h with ⟨hm, e, he, hp⟩ | ⟨hm, e, he, hp⟩
        · exact .inl ⟨hm, e, by simp [he], hp⟩
        · exact .inr ⟨hm, e, by simp [he], hp⟩
      · have hfns' : allFunctions (events.getProp event) = false := by simpa using hfns
        have hfns'' := hfns'
        simp only [allFunctions] at hfns''
        simp only [hplain, hfns''] at h
        refine .inr ⟨?_, event, by simp, hplain, hfns'⟩
        simp at h
        exact h.symm
    · have hplain' : Lodash.isPlainObject (events.getProp event) = false := by simpa using hplain
      simp only [hplain'] at h
      refine .inl ⟨?_, event, by simp, hplain'⟩
      simp at h
      exact h.symm

theorem checkEvents_fails (events : JSVal) (keys : List String)
    (h : ∃ event ∈ keys,
      Lodash.isPlainObject (events.getProp event) = false ∨
        allFunctions (events.getProp event) = false) :
    ∃ message, checkEvents events keys = .error message := by
  cases hc : checkEvents events keys with
  | error message => exact ⟨message, rfl⟩
  | ok u =>
    exfalso
    induction keys with
    | nil => simp at h
    | cons event rest ih =>
      simp only [checkEvents, assert_bind] at hc
      by_cases hplain : Lodash.isPlainObject (events.getProp event) = true
      · by_cases hfns : allFunctions (events.getProp event) = true
        · have hfns' := hfns
          simp only [allFunctions] at hfns'
          simp only [hplain, hfns'] at hc
          obtain ⟨e, he, hbad⟩ := h
          rcases List.mem_cons.1 he with rfl | hrest
          · rcases hbad with hb | hb
            · simp [hplain] at hb
            · simp [hfns] at hb
          · exact ih ⟨e, hrest, hbad⟩ hc
        · have hfns' : allFunctions (events.getProp event) = false := by simpa using hfns
          simp only [allFunctions] at hfns'
          simp [hplain, hfns'] at hc
      · have hplain' : Lodash.isPlainObject (events.getProp event) = false := by
          simpa using hplain
        simp [hplain'] at hc

theorem assertChecks_normalized (env : Env) (service : Service) (componentName : String)
    (options : JSVal) :
    assertChecks env service componentName (if options.truthy then options else .obj []) =
      if (service.customElements.lookup componentName).isSome then
        .error ("Component with name " ++ componentName ++ " already registered")
      else if !hasComponent env componentName then
        .error ("There is no component defined for name: " ++ componentName)
      else if !optionsAccepted options then .error "Options should be an object"
      else if !stringsOrAbsent options "attrs" then
        .error "Options attributes should be an array of strings"
      else if !stringsOrAbsent options "interpolations" then
        .error "Options interpolations should be an array of strings"
      else if !objectOrAbsent options "bindings" then
        .error "Options bindings should be an object"
      else if !objectOrAbsent options "customBindings" then
        .error "Options custom bindings should be an object"
      else if !objectOrAbsent options "events" then
        .error "Options events should be an object"
      else if (options.getProp "events").truthy then
        checkEvents (options.getProp "events") (options.getProp "events").keys
      else .ok () := by
  rw [assertChecks_unfold]
  by_cases hacc : optionsAccepted options = true
  · have hplain : Lodash.isPlainObject (if options.truthy then options else JSVal.obj []) = true := by
      cases options <;> simp_all [optionsAccepted, JSVal.truthy, Lodash.isPlainObject]
    simp only [stringsOrAbsent, objectOrAbsent, getProp_normalized options _ hacc, hplain, hacc]
  · have hacc' : optionsAccepted options = false := by simpa using hacc
    have hplain : Lodash.isPlainObject (if options.truthy then options else JSVal.obj []) = false := by
      cases options <;> simp_all [optionsAccepted, JSVal.truthy, Lodash.isPlainObject]
    simp only [hplain, hacc']
    simp

theorem head?_append (a b : String) (c : Char) (h : a.data.head? = some c) :
    (a ++ b).data.head? = some c := by
  rw [String.data_append]
  cases ha : a.data with
  | nil => rw [ha] at h; simp at h
  | cons x xs => rw [ha] at h; simpa using h

theorem ne_of_head? (a b : String) (c d : Char) (ha : a.data.head? = some c)
    (hb : b.data.head? = some d) (hcd : c ≠ d) : a ≠ b := by
  intro e
  subst e
  rw [ha] at hb
  exact hcd (Option.some.inj hb)

theorem assertMessages_nodup (componentName : String) : (assertMessages componentName).Nodup := by
  have hC : ("Component with name " ++ componentName ++ " already registered").data.head? =
      some 'C' :=
    head?_append ("Component with name " ++ componentName) _ _
      (head?_append "Component with name " componentName _ rfl)
  have hT : ("There is no component defined for name: " ++ componentName).data.head? =
      some 'T' :=
    head?_append "There is no component defined for name: " componentName _ rfl
  simp only [assertMessages, List.nodup_cons, List.mem_cons, List.mem_singleton, not_or,
    List.not_mem_nil, not_false_eq_true, List.nodup_nil, and_true]
  repeat' apply And.intro
  all_goals
    first
    | decide
    | exact ne_of_head? _ _ 'C' 'T' hC hT (by decide)
    | exact ne_of_head? _ _ 'C' 'O' hC rfl (by decide)
    | exact ne_of_head? _ _ 'C' 'V' hC rfl (by decide)
    | exact ne_of_head? _ _ 'T' 'O' hT rfl (by decide)
    | exact ne_of_head? _ _ 'T' 'V' hT rfl (by decide)

/-- C9, as stated, fails: `create('date-picker', false)` and `create('date-picker', 0)`,
whose options are neither a plain object nor omitted, throw nothing and define the
custom element `custom-date-picker`. -/
theorem create_accepts_falsy_options :
    (create sampleEnv emptyService "date-picker" (.bool false)).error = none ∧
      (create sampleEnv emptyService "date-picker" (.bool false)).service.defined.map Prod.fst =
        ["custom-date-picker"] ∧
      (create sampleEnv emptyService "date-picker" (.num 0)).error = none ∧
      (create sampleEnv emptyService "date-picker" (.num 0)).service.defined.map Prod.fst =
        ["custom-date-picker"] := by
  refine ⟨rfl, rfl, rfl, rfl⟩

/-- C9, amended. `create` throws, with the registry and the defined custom elements left
as they were, whenever one of these holds: no host component is defined for the name; `options` is truthy and not a plain
object (a falsy `options` counts as omitted); `attrs` or `interpolations` is present and
not an array of strings; `bindings`, `customBindings` or `events` is present and not a
plain object; some `events[name]` is not a plain object or has a value that is not a
function. The message is one of the ten pairwise distinct messages of the assert checks:
for a name that is not registered yet, that of the first check in source order that
fails. -/
theorem create_assert_checks (env : Env) (service : Service) (componentName : String)
    (options : JSVal) :
    ((hasComponent env componentName = false ∨ optionsAccepted options = false ∨
          stringsOrAbsent options "attrs" = false ∨
          stringsOrAbsent options "interpolations" = false ∨
          objectOrAbsent options "bindings" = false ∨
          objectOrAbsent options "customBindings" = false ∨
          objectOrAbsent options "events" = false ∨
          ∃ event ∈ (options.getProp "events").keys,
            Lodash.isPlainObject ((options.getProp "events").getProp event) = false ∨
              allFunctions ((options.getProp "events").getProp event) = false) →
        ∃ message ∈ assertMessages componentName,
          failsUnchanged env service componentName options message) ∧
      (assertMessages componentName).Nodup ∧
      ((service.customElements.lookup componentName).isSome = false →
        hasComponent env componentName = false →
        failsUnchanged env service componentName options
          ("There is no component defined for name: " ++ componentName)) ∧
      ((service.customElements.lookup componentName).isSome = false →
        hasComponent env componentName = true →
        (optionsAccepted options = false →
          failsUnchanged env service componentName options "Options should be an object") ∧
        (optionsAccepted options = true →
          (stringsOrAbsent options "attrs" = false →
            failsUnchanged env service componentName options
              "Options attributes should be an array of strings") ∧
          (stringsOrAbsent options "attrs" = true →
            (stringsOrAbsent options "interpolations" = false →
              failsUnchanged env service componentName options
                "Options interpolations should be an array of strings") ∧
            (stringsOrAbsent options "interpolations" = true →
              (objectOrAbsent options "bindings" = false →
                failsUnchanged env service componentName options
                  "Options bindings should be an object") ∧
              (objectOrAbsent options "bindings" = true →
                (objectOrAbsent options "customBindings" = false →
                  failsUnchanged env service componentName options
                    "Options custom bindings should be an object") ∧
                (objectOrAbsent options "customBindings" = true →
                  (objectOrAbsent options "events" = false →
                    failsUnchanged env service componentName options
                      "Options events should be an object") ∧
                  (objectOrAbsent options "events" = true →
                    ((∃ event ∈ (options.getProp "events").keys,
                        Lodash.isPlainObject ((options.getProp "events").getProp event) =
                          false) →
                      (∀ event ∈ (options.getProp "events").keys,
                        Lodash.isPlainObject ((options.getProp "events").getProp event) =
                          true →
                        allFunctions ((options.getProp "events").getProp event) = true) →
                      failsUnchanged env service componentName options
                        "Value of event should be an object with injectables") ∧
                    ((∀ event ∈ (options.getProp "events").keys,
                        Lodash.isPlainObject ((options.getProp "events").getProp event) =
                          true) →
                      (∃ event ∈ (options.getProp "events").keys,
                        allFunctions ((options.getProp "events").getProp event) = false) →
                      failsUnchanged env service componentName options
                        "Value of injectable should be a function")))))))) := by
  have hnorm := assertChecks_normalized env service componentName options
  have hfail : ∀ message,
      assertChecks env service componentName (if options.truthy then options else .obj []) =
        .error message → failsUnchanged env service componentName options message :=
    fun message h => create_of_assertChecks_error env service componentName options message h
  have hevents : (∃ event ∈ (options.getProp "events").keys,
        Lodash.isPlainObject ((options.getProp "events").getProp event) = false ∨
          allFunctions ((options.getProp "events").getProp event) = false) →
      (options.getProp "events").truthy = true := by
    rintro ⟨event, hmem, -⟩
    cases hev : options.getProp "events" with
    | obj props => rfl
    | arr items => rfl
    | str s =>
      rw [hev] at hmem
      cases hs : s.data with
      | nil =>
        have : s.length = 0 := by simp [String.length, hs]
        simp [JSVal.keys, this] at hmem
      | cons c cs =>
        have hne : s ≠ "" := by
          intro e
          rw [e] at hs
          cases hs
        simp [JSVal.truthy, hne]
    | _ => rw [hev] at hmem; simp [JSVal.keys] at hmem
  refine ⟨?_, assertMessages_nodup componentName, ?_, ?_⟩
  · intro hviolation
    by_cases hnew : (service.customElements.lookup componentName).isSome = false
    swap
    · exact ⟨"Component with name " ++ componentName ++ " already registered",
        by simp [assertMessages], hfail _ (by simp [hnorm, hnew])⟩
    simp only [hnew] at hnorm
    by_cases h1 : hasComponent env componentName = true
    swap
    · exact ⟨"There is no component defined for name: " ++ componentName, by simp [assertMessages], hfail _ (by simp [hnorm, h1])⟩
    by_cases h2 : optionsAccepted options = true
    swap
    · exact ⟨"Options should be an object", by simp [assertMessages], hfail _ (by simp [hnorm, h1, h2])⟩
    by_cases h3 : stringsOrAbsent options "attrs" = true
    swap
    · exact ⟨"Options attributes should be an array of strings", by simp [assertMessages], hfail _ (by simp [hnorm, h1, h2, h3])⟩
    by_cases h4 : stringsOrAbsent options "interpolations" = true
    swap
    · exact ⟨"Options interpolations should be an array of strings", by simp [assertMessages], hfail _ (by simp [hnorm, h1, h2, h3, h4])⟩
    by_cases h5 : objectOrAbsent options "bindings" = true
    swap
    · exact ⟨"Options bindings should be an object", by simp [assertMessages], hfail _ (by simp [hnorm, h1, h2, h3, h4, h5])⟩
    by_cases h6 : objectOrAbsent options "customBindings" = true
    swap
    · exact ⟨"Options custom bindings should be an object", by simp [assertMessages], hfail _ (by simp [hnorm, h1, h2, h3, h4, h5, h6])⟩
    by_cases h7 : objectOrAbsent options "events" = true
    swap
    · exact ⟨"Options events should be an object", by simp [assertMessages], hfail _ (by simp [hnorm, h1, h2, h3, h4, h5, h6, h7])⟩
    have hbad : ∃ event ∈ (options.getProp "events").keys,
        Lodash.isPlainObject ((options.getProp "events").getProp event) = false ∨
          allFunctions ((options.getProp "events").getProp event) = false := by
      rcases hviolation with h | h | h | h | h | h | h | h
      · simp [h1] at h
      · simp [h2] at h
      · simp [h3] at h
      · simp [h4] at h
      · simp [h5] at h
      · simp [h6] at h
      · simp [h7] at h
      · exact h
    have htruthy := hevents hbad
    obtain ⟨message, hmessage⟩ := checkEvents_fails _ _ hbad
    have hchecks : assertChecks env service componentName
        (if options.truthy then options else .obj []) = .error message := by
      simp [hnorm, h1, h2, h3, h4, h5, h6, h7, htruthy, hmessage]
    refine ⟨message, ?_, hfail _ hchecks⟩
    rcases checkEvents_error _ _ _ hmessage with ⟨hm, -⟩ | ⟨hm, -⟩ <;> simp [assertMessages, hm]
  · intro hnew h1
    exact hfail _ (by simp [hnorm, hnew, h1])
  · intro hnew h1
    simp only [hnew] at hnorm
    refine ⟨fun h2 => hfail _ (by simp [hnorm, h1, h2]), fun h2 => ?_⟩
    refine ⟨fun h3 => hfail _ (by simp [hnorm, h1, h2, h3]), fun h3 => ?_⟩
    refine ⟨fun h4 => hfail _ (by simp [hnorm, h1, h2, h3, h4]), fun h4 => ?_⟩
    refine ⟨fun h5 => hfail _ (by simp [hnorm, h1, h2, h3, h4, h5]), fun h5 => ?_⟩
    refine ⟨fun h6 => hfail _ (by simp [hnorm, h1, h2, h3, h4, h5, h6]), fun h6 => ?_⟩
    refine ⟨fun h7 => hfail _ (by simp [hnorm, h1, h2, h3, h4, h5, h6, h7]), fun h7 => ?_⟩
    have hmessage : ∀ (hbad : ∃ event ∈ (options.getProp "events").keys,
        Lodash.isPlainObject ((options.getProp "events").getProp event) = false ∨
          allFunctions ((options.getProp "events").getProp event) = false),
        ∃ message, checkEvents (options.getProp "events") (options.getProp "events").keys =
            .error message ∧ failsUnchanged env service componentName options message := by
      intro hbad
      have htruthy := hevents hbad
      obtain ⟨message, hmessage⟩ := checkEvents_fails _ _ hbad
      exact ⟨message, hmessage, hfail _ (by
        simp [hnorm, h1, h2, h3, h4, h5, h6, h7, htruthy, hmessage])⟩
    constructor
    · rintro ⟨event, hmem, hplain⟩ hfns
      obtain ⟨message, hcheck, hfails⟩ := hmessage ⟨event, hmem, .inl hplain⟩
      rcases checkEvents_error _ _ _ hcheck with ⟨hm, -⟩ | ⟨-, e, he, hp, hf⟩
      · rw [← hm]
        exact hfails
      · rw [hfns e he hp] at hf
        cases hf
    · rintro hplain ⟨event, hmem, hfns⟩
      obtain ⟨message, hcheck, hfails⟩ := hmessage ⟨event, hmem, .inr hfns⟩
      rcases checkEvents_error _ _ _ hcheck with ⟨-, e, he, hp⟩ | ⟨hm, -⟩
      · rw [hplain e he] at hp
        cases hp
      · rw [← hm]
        exact hfails

/-- Witness for C9: `create('date-picker', {attrs: 'required'})` on an empty registry throws
`'Options attributes should be an array of strings'` and defines nothing. -/
theorem create_assert_checks_witness :
    (create sampleEnv emptyService "date-picker" malformedAttrsOptions).error =
        some "Options attributes should be an array of strings" ∧
      (create sampleEnv emptyService "date-picker" malformedAttrsOptions).service.defined.map
        Prod.fst = [] := by
  have h := (((create_assert_checks sampleEnv emptyService "date-picker"
    malformedAttrsOptions).2.2.2 rfl rfl).2 rfl).1 rfl
  unfold failsUnchanged at h
  rw [h]
  exact ⟨rfl, rfl⟩

theorem hasGetterOrSetter_unfold (property : JSVal) (bindingName : String)
    (hu : property ≠ .undefined) (hn : property ≠ .null) :
    hasGetterOrSetter property bindingName =
      if Lodash.isPlainObject property && decide (property.keys ∈ getSetKeyLists) then .ok ()
      else .error (getterOrSetterMessage bindingName) := by
  have hkeys : objectKeys property = .ok property.keys := by
    cases property <;> first | rfl | exact absurd rfl hu | exact absurd rfl hn
  have hmem : (property.keys == ["set", "get"] || property.keys == ["get", "set"] ||
      property.keys == ["get"] || property.keys == ["set"]) =
      decide (property.keys ∈ getSetKeyLists) := by
    rw [Bool.eq_iff_iff]
    simp [getSetKeyLists, or_assoc]
  simp only [hasGetterOrSetter, hkeys, bind, Except.bind, hmem, assert, getterOrSetterMessage]
  cases (Lodash.isPlainObject property && decide (property.keys ∈ getSetKeyLists)) <;> rfl

theorem extendWithBindings_ok (env : Env) (bindings : JSVal) :
    ∀ (keys : List String) (prototype prototype' : Prototype),
      extendWithBindings env bindings keys prototype = .ok prototype' →
      ∀ binding ∈ keys, ∃ property,
        resolveDeclaration env (bindings.getProp binding) binding = .ok property ∧
          hasGetterOrSetter property binding = .ok () := by
  intro keys
  induction keys with
  | nil => intro _ _ _ binding hmem; simp at hmem
  | cons key rest ih =>
    intro prototype prototype' h binding hmem
    simp only [extendWithBindings, assert_bind] at h
    split at h
    · cases h
    · cases hres : resolveDeclaration env (bindings.getProp key) key with
      | error e => simp [hres, bind, Except.bind] at h
      | ok property =>
        cases hval : hasGetterOrSetter property key with
        | error e => simp [hres, hval, bind, Except.bind] at h
        | ok u =>
          simp only [hres, hval, bind, Except.bind] at h
          rcases List.mem_cons.1 hmem with rfl | hrest
          · exact ⟨property, hres, hval⟩
          · exact ih _ _ h binding hrest

theorem extendWithCustomBindings_ok (env : Env) (customBindings : JSVal) :
    ∀ (keys : List String) (prototype prototype' : Prototype),
      extendWithCustomBindings env customBindings keys prototype = .ok prototype' →
      ∀ binding ∈ keys, ∃ property,
        resolveDeclaration env ((customBindings.getProp binding).getProp "decode") binding =
            .ok property ∧
          hasGetterOrSetter property binding = .ok () := by
  intro keys
  induction keys with
  | nil => intro _ _ _ binding hmem; simp at hmem
  | cons key rest ih =>
    intro prototype prototype' h binding hmem
    simp only [extendWithCustomBindings, assert_bind] at h
    split at h
    · cases h
    · split at h
      · cases h
      · split at h
        · cases h
        · split at h
          · cases h
          · cases hres : resolveDeclaration env
                ((customBindings.getProp key).getProp "decode") key with
            | error e => simp [hres, bind, Except.bind] at h
            | ok property =>
              cases hval : hasGetterOrSetter property key with
              | error e => simp [hres, hval, bind, Except.bind] at h
              | ok u =>
                simp only [hres, hval, bind, Except.bind] at h
                rcases List.mem_cons.1 hmem with rfl | hrest
                · exact ⟨property, hres, hval⟩
                · exact ih _ _ h binding hrest

theorem keys_of_not_truthy (value : JSVal) (h : value.truthy = false) : value.keys = [] := by
  cases value with
  | str s =>
    have hs : s = "" := by simpa [JSVal.truthy] using h
    subst hs
    rfl
  | arr items => simp [JSVal.truthy] at h
  | obj props => simp [JSVal.truthy] at h
  | _ => rfl

theorem create_ok_buildPrototype (env : Env) (service : Service) (componentName : String)
    (options : JSVal) (h : (create env service componentName options).error = none) :
    optionsAccepted options = true ∧
      ∃ prototype,
        buildPrototype env (if options.truthy then options else .obj []) = .ok prototype := by
  simp only [create] at h
  cases hchecks : assertChecks env service componentName
      (if options.truthy then options else .obj []) with
  | error e => simp [hchecks] at h
  | ok u =>
    constructor
    · have hnorm := assertChecks_normalized env service componentName options
      rw [hchecks] at hnorm
      by_cases hacc : optionsAccepted options = true
      · exact hacc
      · exfalso
        have hacc' : optionsAccepted options = false := by simpa using hacc
        simp only [hacc'] at hnorm
        split at hnorm
        · cases hnorm
        · split at hnorm
          · cases hnorm
          · simp at hnorm
    · cases hproto : buildPrototype env (if options.truthy then options else .obj []) with
      | error e => simp [hchecks, hproto, bind, Except.bind] at h
      | ok prototype => exact ⟨prototype, rfl⟩

/-- C10 on the code: `{set: f, enumerable: true}` is a plain object that has a `set`, yet
`hasGetterOrSetter` throws `'Binding "selectedYear" should be have either setter or
getter or both'` on it, and so does `create('date-picker', {bindings: {selectedYear:
{set: f, enumerable: true}}})`, which defines no custom element; the same declaration
without `enumerable` passes and `create` defines `custom-date-picker`. -/
theorem hasGetterOrSetter_rejects_extra_key :
    Lodash.isPlainObject enumerableSetter = true ∧
      Lodash.isFunction (enumerableSetter.getProp "set") = true ∧
      hasGetterOrSetter enumerableSetter "selectedYear" =
        .error "Binding \"selectedYear\" should be have either setter or getter or both" ∧
      (create sampleEnv emptyService "date-picker" enumerableSetterOptions).error =
        some "Binding \"selectedYear\" should be have either setter or getter or both" ∧
      (create sampleEnv emptyService "date-picker"
          enumerableSetterOptions).service.defined.map Prod.fst = [] ∧
      hasGetterOrSetter (.obj [("set", .fn (.user 0))]) "selectedYear" = .ok () ∧
      (create sampleEnv emptyService "date-picker" literalBindingOptions).error = none := by
  refine ⟨rfl, rfl, rfl, rfl, rfl, rfl, rfl⟩

/-- What the code does with a declaration, whatever its docstring says. `create` resolves
it by calling it with the binding name when it is a function and by using it as it is
when it is an object. On a resolved value other than `undefined` and `null`,
`hasGetterOrSetter` returns exactly when the value is a plain object whose own keys are
the lists `getSetKeyLists` compares with, and otherwise throws `'Binding "<name>" should
be have either setter or getter or both'`. Whenever `create` returns without an error,
every declared binding and every `decode` of a declared custom binding has been resolved
to a value on which `hasGetterOrSetter` returned. -/
theorem bindings_resolved_and_validated (env : Env) :
    (∀ (factory : FnRef) (binding : String),
        resolveDeclaration env (.fn factory) binding = callFn env factory [.str binding]) ∧
      (∀ (props : Props) (binding : String),
        resolveDeclaration env (.obj props) binding = .ok (.obj props)) ∧
      (∀ (property : JSVal) (bindingName : String),
        property ≠ .undefined → property ≠ .null →
        (hasGetterOrSetter property bindingName = .ok () ↔
            ∃ props, property = .obj props ∧ props.map Prod.fst ∈ getSetKeyLists) ∧
          (hasGetterOrSetter property bindingName ≠ .ok () →
            hasGetterOrSetter property bindingName =
              .error ("Binding \"" ++ bindingName ++
                "\" should be have either setter or getter or both"))) ∧
      (∀ (service : Service) (componentName : String) (options : JSVal),
        (create env service componentName options).error = none →
        (∀ binding ∈ (options.getProp "bindings").keys, ∃ property,
            resolveDeclaration env ((options.getProp "bindings").getProp binding) binding =
                .ok property ∧
              hasGetterOrSetter property binding = .ok ()) ∧
          (∀ binding ∈ (options.getProp "customBindings").keys, ∃ property,
            resolveDeclaration env
                (((options.getProp "customBindings").getProp binding).getProp "decode")
                binding = .ok property ∧
              hasGetterOrSetter property binding = .ok ())) := by
  refine ⟨fun _ _ => rfl, fun _ _ => rfl, ?_, ?_⟩
  · intro property bindingName hu hn
    rw [hasGetterOrSetter_unfold property bindingName hu hn]
    constructor
    · constructor
      · intro h
        split at h
        · rename_i hc
          cases property with
          | obj props =>
            refine ⟨props, rfl, ?_⟩
            simpa [Lodash.isPlainObject, JSVal.keys] using hc
          | _ => simp [Lodash.isPlainObject] at hc
        · cases h
      · rintro ⟨props, rfl, hmem⟩
        simp [Lodash.isPlainObject, JSVal.keys, hmem]
    · intro h
      by_cases hc : (Lodash.isPlainObject property && decide (property.keys ∈ getSetKeyLists)) =
          true
      · simp [hc] at h
      · simp [hc, getterOrSetterMessage]
  · intro service componentName options h
    obtain ⟨hacc, prototype, hproto⟩ := create_ok_buildPrototype env service componentName
      options h
    simp only [buildPrototype, getProp_normalized options _ hacc] at hproto
    cases h₁ : (if (options.getProp "interpolations").truthy = true then
        extendWithInterpolations (arrayItems (options.getProp "interpolations"))
          [("constructor", Descriptor.constructorValue),
            ("connectedCallback", Descriptor.connectedCallback),
            ("disconnectedCallback", Descriptor.disconnectedCallback)]
        else Except.ok
          [("constructor", Descriptor.constructorValue),
            ("connectedCallback", Descriptor.connectedCallback),
            ("disconnectedCallback", Descriptor.disconnectedCallback)]) with
    | error e => simp [h₁, bind, Except.bind] at hproto
    | ok p₁ =>
      simp only [h₁, bind, Except.bind] at hproto
      cases h₂ : (if (options.getProp "bindings").truthy = true then
          extendWithBindings env (options.getProp "bindings") (options.getProp "bindings").keys p₁
          else Except.ok p₁) with
      | error e => simp [h₂] at hproto
      | ok p₂ =>
        simp only [h₂] at hproto
        constructor
        · intro binding hmem
          by_cases ht : (options.getProp "bindings").truthy = true
          · simp only [ht, if_true] at h₂
            exact extendWithBindings_ok env _ _ _ _ h₂ binding hmem
          · have ht' : (options.getProp "bindings").truthy = false := by simpa using ht
            rw [keys_of_not_truthy _ ht'] at hmem
            simp at hmem
        · intro binding hmem
          by_cases ht : (options.getProp "customBindings").truthy = true
          · simp only [ht, if_true] at hproto
            exact extendWithCustomBindings_ok env _ _ _ _ hproto binding hmem
          · have ht' : (options.getProp "customBindings").truthy = false := by simpa using ht
            rw [keys_of_not_truthy _ ht'] at hmem
            simp at hmem

/-- An instance of `bindings_resolved_and_validated`: `create('date-picker', {bindings:
{selectedYear: {set: f}}})` returns without an error, and the literal `{set: f}` is what
was validated. -/
theorem bindings_resolved_and_validated_witness :
    (create sampleEnv emptyService "date-picker" literalBindingOptions).error = none ∧
      ∃ property,
        resolveDeclaration sampleEnv
            ((literalBindingOptions.getProp "bindings").getProp "selectedYear") "selectedYear" =
            .ok property ∧
          hasGetterOrSetter property "selectedYear" = .ok () :=
  ⟨rfl, ((bindings_resolved_and_validated sampleEnv).2.2.2 emptyService "date-picker"
    literalBindingOptions rfl).1 "selectedYear" (by decide)⟩

/-- C14 on the code: `service.encode.identity` is `_.identity`, so it returns the value it
is given, whatever the value is; given `undefined` it returns `undefined`, not `null`. -/
theorem encode_identity_returns_its_argument (env : Env) (value : JSVal) :
    callFn env encode.identity [value] = .ok value ∧
      callFn env encode.identity [.undefined] = .ok .undefined := by
  exact ⟨rfl, rfl⟩

/-! ## The validation of decode options -/

/-- C13, as stated, fails: options whose `equalityCheck` is `false`, present and not a
function, are accepted, and the decoder compares with `_.isEqual`. -/
theorem decode_accepts_false_equalityCheck :
    falseEqualityCheckOptions.hasOwnProperty "equalityCheck" = true ∧
      Lodash.isFunction (falseEqualityCheckOptions.getProp "equalityCheck") = false ∧
      decode falseEqualityCheckOptions = .ok integerDecoder := by
  refine ⟨rfl, rfl, rfl⟩

/-- C13, amended. `decode(options)` returns a factory exactly when `options.assert` is a
function, `options.type` is a string, `options.valueTransformation` is a function or
`undefined`, and `options.equalityCheck` is a function or falsy; in every other case it
throws. A returned factory uses `_.isEqual` when `equalityCheck` is falsy, accepts every
string as binding name and throws `'Binding name should be a string'` for every binding
name that is not a string. -/
theorem decode_accepts_iff (options : JSVal) :
    ((∃ d, decode options = .ok d) ↔
        Lodash.isFunction (options.getProp "assert") = true ∧
          Lodash.isString (options.getProp "type") = true ∧
          (Lodash.isFunction (options.getProp "valueTransformation") = true ∨
            isUndefined (options.getProp "valueTransformation") = true) ∧
          (Lodash.isFunction (options.getProp "equalityCheck") = true ∨
            (options.getProp "equalityCheck").truthy = false)) ∧
      ((¬ ∃ d, decode options = .ok d) → ∃ message, decode options = .error message) ∧
      ∀ d, decode options = .ok d →
        ((options.getProp "equalityCheck").truthy = false → d.equalityCheck = .isEqual) ∧
          (∀ name, d.apply (.str name) = .ok { decoder := d, bindingName := name }) ∧
          ∀ bindingName, Lodash.isString bindingName = false →
            d.apply bindingName = .error "Binding name should be a string" := by
  refine ⟨⟨?_, ?_⟩, ?_, ?_⟩
  · rintro ⟨d, hd⟩
    obtain ⟨hassert, htype, -, heq, -, -, -⟩ := decode_ok options d hd
    refine ⟨by rw [hassert]; rfl, by rw [htype]; rfl, ?_, ?_⟩
    · unfold decode at hd
      split at hd
      · cases hd
      · cases hd
      · simp only at hd
        split at hd
        · cases hd
        · rename_i hvt
          by_cases hf : Lodash.isFunction (options.getProp "valueTransformation") = true
          · exact .inl hf
          · right
            simpa [hf] using hvt
    · by_cases ht : (options.getProp "equalityCheck").truthy = true
      · left
        rw [heq ht]
        rfl
      · right
        simpa using ht
  · rintro ⟨hassert, htype, hvt, heq⟩
    cases hopt : options with
    | obj props =>
      rw [hopt] at hassert htype hvt heq
      have hvt' : (Lodash.isFunction ((JSVal.obj props).getProp "valueTransformation") ||
          isUndefined ((JSVal.obj props).getProp "valueTransformation")) = true := by
        simpa using hvt
      cases ha : (JSVal.obj props).getProp "assert" with
      | fn assertion =>
        cases hty : (JSVal.obj props).getProp "type" with
        | str type =>
          cases hdec : decode (.obj props) with
          | ok d => exact ⟨d, rfl⟩
          | error message =>
            exfalso
            by_cases ht : ((JSVal.obj props).getProp "equalityCheck").truthy = true
            · rcases heq with heq | heq
              · cases he : (JSVal.obj props).getProp "equalityCheck" with
                | fn eq => simp [decode, hvt', he, ha, hty, JSVal.truthy] at hdec
                | _ => rw [he] at heq; simp [Lodash.isFunction] at heq
              · rw [heq] at ht
                cases ht
            · simp [decode, hvt', ht, ha, hty] at hdec
        | _ => rw [hty] at htype; simp [Lodash.isString] at htype
      | _ => rw [ha] at hassert; simp [Lodash.isFunction] at hassert
    | _ => rw [hopt] at hassert; simp [JSVal.getProp, Lodash.isFunction] at hassert
  · intro hno
    cases h : decode options with
    | error message => exact ⟨message, rfl⟩
    | ok d => exact absurd ⟨d, h⟩ hno
  · intro d hd
    refine ⟨(decode_ok options d hd).2.2.2.2.1, fun _ => rfl, ?_⟩
    intro bindingName hname
    cases bindingName <;> first | rfl | simp [Lodash.isString] at hname

/-- Witness for C13: the options of `service.decode.integer` are accepted, and the factory
throws for the binding name `5`. -/
theorem decode_accepts_iff_witness :
    decode decode.integerOptions = .ok integerDecoder ∧
      integerDecoder.apply (.num 5) = .error "Binding name should be a string" :=
  ⟨rfl, ((decode_accepts_iff decode.integerOptions).2.2 integerDecoder rfl).2.2 (.num 5) rfl⟩

/-! ## The attributes of the inner element -/

theorem lookup_setProp_eq {α : Type} (k : String) (v : α) (l : List (String × α)) :
    (setProp k v l).lookup k = some v := by
  induction l with
  | nil => simp [setProp, List.lookup]
  | cons hd tl ih =>
    obtain ⟨k', v'⟩ := hd
    by_cases h : k' = k
    · simp [setProp, h, List.lookup]
    · have h' : (k == k') = false := by simpa using fun e => h e.symm
      simp [setProp, h, List.lookup, h', ih]

theorem lookup_setProp_ne {α : Type} (k k' : String) (v : α) (l : List (String × α))
    (hk : k' ≠ k) : (setProp k v l).lookup k' = l.lookup k' := by
  induction l with
  | nil =>
    have h' : (k' == k) = false := by simpa using hk
    simp [setProp, List.lookup, h']
  | cons hd tl ih =>
    obtain ⟨k₁, v₁⟩ := hd
    by_cases h : k₁ = k
    · subst h
      have h' : (k' == k₁) = false := by simpa using hk
      simp [setProp, List.lookup, h']
    · simp only [setProp, h, if_false, List.lookup]
      cases (k' == k₁) <;> simp [ih]

theorem lookup_foldl_setProp (name : String) (writes : List (String × String)) :
    ∀ attributes : List (String × String),
      (writes.foldl (fun attributes write => setProp write.1 write.2 attributes)
          attributes).lookup name =
        (writes.reverse.lookup name).or (attributes.lookup name) := by
  induction writes with
  | nil => intro attributes; simp [List.lookup]
  | cons write rest ih =>
    intro attributes
    obtain ⟨k, v⟩ := write
    simp only [List.foldl_cons, List.reverse_cons, List.lookup_append, ih]
    by_cases hk : name = k
    · subst hk
      cases List.lookup name rest.reverse <;> simp [lookup_setProp_eq, List.lookup]
    · have hne : (name == k) = false := by simpa using hk
      cases List.lookup name rest.reverse <;>
        simp [lookup_setProp_ne k name v attributes hk, List.lookup, hne]

theorem attr_of_error (document : Document) (wiring : Wiring) (e : String)
    (h : wiring.error = some e) (name value : String) :
    wiring.attr document name value = wiring := by
  simp [Wiring.attr, h]

theorem attr_of_valid (document : Document) (wiring : Wiring) (h : wiring.error = none)
    (name value : String) (hv : document.validName name = true) :
    wiring.attr document name value =
      { wiring with
        element :=
          { wiring.element with
            attributes :=
              setProp (written document (name, value)).1 (written document (name, value)).2
                wiring.element.attributes } } := by
  simp [Wiring.attr, h, ComponentElement.attr, ComponentElement.setAttribute, hv, written]

theorem attr_of_invalid (document : Document) (wiring : Wiring) (h : wiring.error = none)
    (name value : String) (hv : document.validName name = false) :
    wiring.attr document name value = { wiring with error := some "InvalidCharacterError" } := by
  simp [Wiring.attr, h, ComponentElement.attr, ComponentElement.setAttribute, hv]

theorem setAll_of_error (document : Document) (writes : List (String × String)) :
    ∀ (wiring : Wiring) (e : String), wiring.error = some e →
      wiring.setAll document writes = wiring := by
  induction writes with
  | nil => intro wiring e _; rfl
  | cons write rest ih =>
    intro wiring e h
    simp only [Wiring.setAll, List.foldl_cons, attr_of_error document wiring e h]
    exact ih wiring e h

theorem setAll_append (document : Document) (a b : List (String × String)) (wiring : Wiring) :
    wiring.setAll document (a ++ b) = (wiring.setAll document a).setAll document b := by
  simp [Wiring.setAll, List.foldl_append]

theorem setAll_spec (document : Document) (writes : List (String × String)) :
    ∀ wiring : Wiring, wiring.error = none →
      ((wiring.setAll document writes).error = none ↔
          ∀ write ∈ writes, document.validName write.1 = true) ∧
        ((wiring.setAll document writes).error = none →
          (wiring.setAll document writes).element.attributes =
              (writes.map (written document)).foldl
                (fun attributes write => setProp write.1 write.2 attributes)
                wiring.element.attributes ∧
            (wiring.setAll document writes).element.tagName = wiring.element.tagName ∧
            (wiring.setAll document writes).element.innerHTML = wiring.element.innerHTML ∧
            (wiring.setAll document writes).handlers = wiring.handlers) := by
  induction writes with
  | nil =>
    intro wiring h
    exact ⟨⟨fun _ _ hmem => by simp at hmem, fun _ => h⟩, fun _ => ⟨rfl, rfl, rfl, rfl⟩⟩
  | cons write rest ih =>
    intro wiring h
    obtain ⟨name, value⟩ := write
    have hcons : wiring.setAll document ((name, value) :: rest) =
        (wiring.attr document name value).setAll document rest := rfl
    rw [hcons]
    by_cases hv : document.validName name = true
    · rw [attr_of_valid document wiring h name value hv]
      obtain ⟨hiff, hattrs⟩ := ih
        { wiring with
          element :=
            { wiring.element with
              attributes :=
                setProp (written document (name, value)).1 (written document (name, value)).2
                  wiring.element.attributes } } h
      refine ⟨?_, ?_⟩
      · rw [hiff]
        constructor
        · intro hall write hmem
          rcases List.mem_cons.1 hmem with rfl | hrest
          · exact hv
          · exact hall write hrest
        · intro hall write hmem
          exact hall write (List.mem_cons_of_mem _ hmem)
      · intro hok
        simpa using hattrs hok
    · have hv' : document.validName name = false := by simpa using hv
      rw [attr_of_invalid document wiring h name value hv',
        setAll_of_error document rest _ "InvalidCharacterError" rfl]
      refine ⟨⟨fun hok => by simp at hok, fun hall => ?_⟩, fun hok => by simp at hok⟩
      have := hall (name, value) (by simp)
      simp [hv'] at this

theorem stringItems_of_not_truthy (value : JSVal) (h : value.truthy = false) :
    stringItems value = [] := by
  cases value <;> first | rfl | simp [JSVal.truthy] at h

theorem replicateAttributes_eq (document : Document) (attrs : JSVal) (outer : List String)
    (wiring : Wiring) :
    replicateAttributes document attrs outer wiring =
      wiring.setAll document
        (((stringItems attrs).filter (hasAttribute outer)).map (fun attr => (attr, ""))) := by
  have hfold : ∀ (items : List String) (wiring : Wiring),
      items.foldl
          (fun wiring attr =>
            if hasAttribute outer attr then wiring.attr document attr "" else wiring)
          wiring =
        wiring.setAll document
          ((items.filter (hasAttribute outer)).map (fun attr => (attr, ""))) := by
    intro items
    induction items with
    | nil => intro wiring; rfl
    | cons attr rest ih =>
      intro wiring
      by_cases hc : hasAttribute outer attr = true
      · simp only [List.foldl_cons, hc, if_true, List.filter_cons_of_pos, List.map_cons]
        rw [ih]
        rfl
      · have hc' : hasAttribute outer attr = false := by simpa using hc
        simp only [List.foldl_cons, hc', List.filter_cons, Bool.false_eq_true, if_false]
        exact ih wiring
  unfold replicateAttributes
  by_cases ht : attrs.truthy = true
  · simp only [ht, if_true]
    exact hfold _ _
  · have ht' : attrs.truthy = false := by simpa using ht
    simp only [ht', Bool.false_eq_true, if_false, stringItems_of_not_truthy attrs ht']
    rfl

theorem addInterpolations_eq (env : Env) (document : Document) (interpolations : JSVal)
    (wiring : Wiring) :
    addInterpolations env document interpolations wiring =
      wiring.setAll document
        ((stringItems interpolations).map
          (fun p => (env.kebabCase p, "\x7b\x7b " ++ p ++ " \x7d\x7d"))) := by
  unfold addInterpolations
  by_cases ht : interpolations.truthy = true
  · simp only [ht, if_true, Wiring.setAll, List.foldl_map]
  · have ht' : interpolations.truthy = false := by simpa using ht
    simp only [ht', Bool.false_eq_true, if_false, stringItems_of_not_truthy _ ht']
    rfl

theorem addBindings_eq (env : Env) (document : Document) (bindings : JSVal) (wiring : Wiring) :
    addBindings env document bindings wiring =
      wiring.setAll document (bindings.keys.map (fun b => (env.kebabCase b, b))) := by
  unfold addBindings
  by_cases ht : bindings.truthy = true
  · simp only [ht, if_true, Wiring.setAll, List.foldl_map]
  · have ht' : bindings.truthy = false := by simpa using ht
    simp only [ht', Bool.false_eq_true, if_false, keys_of_not_truthy _ ht']
    rfl

theorem addCustomBindings_eq (document : Document) (customBindings : JSVal)
    (wiring : Wiring) :
    addCustomBindings document customBindings wiring =
      wiring.setAll document
        (customBindings.keys.map
          (fun b =>
            (stringValue ((customBindings.getProp b).getProp "attr"),
              stringValue ((customBindings.getProp b).getProp "attrValue")))) := by
  unfold addCustomBindings
  by_cases ht : customBindings.truthy = true
  · simp only [ht, if_true, Wiring.setAll, List.foldl_map]
  · have ht' : customBindings.truthy = false := by simpa using ht
    simp only [ht', Bool.false_eq_true, if_false, keys_of_not_truthy _ ht']
    rfl

theorem attr_congr (document : Document) (a b : Wiring) (name value : String)
    (helement : a.element = b.element) (herror : a.error = b.error) :
    (a.attr document name value).element = (b.attr document name value).element ∧
      (a.attr document name value).error = (b.attr document name value).error := by
  cases hb : b.error with
  | some e =>
    rw [attr_of_error document a e (herror.trans hb), attr_of_error document b e hb]
    exact ⟨helement, herror⟩
  | none =>
    simp only [Wiring.attr, herror.trans hb, hb, helement]
    cases b.element.attr document name value <;> exact ⟨rfl, rfl⟩

theorem addEvents_eq (env : Env) (document : Document) (events : JSVal) (wiring : Wiring) :
    (addEvents env document events wiring).element =
        (wiring.setAll document
          (events.keys.map
            (fun e => (env.kebabCase e, eventExpression e (events.getProp e).keys)))).element ∧
      (addEvents env document events wiring).error =
        (wiring.setAll document
          (events.keys.map
            (fun e => (env.kebabCase e, eventExpression e (events.getProp e).keys)))).error := by
  have hfold : ∀ (keys : List String) (a b : Wiring), a.element = b.element →
      a.error = b.error →
      (keys.foldl
          (fun wiring event =>
            match wiring.error with
            | some _ => wiring
            | none =>
              Wiring.attr document
                { wiring with
                  handlers := setProp event (eventHandler events event) wiring.handlers }
                (env.kebabCase event)
                (eventExpression event (eventHandler events event).injectables))
          a).element =
        (b.setAll document
          (keys.map
            (fun e => (env.kebabCase e, eventExpression e (events.getProp e).keys)))).element ∧
      (keys.foldl
          (fun wiring event =>
            match wiring.error with
            | some _ => wiring
            | none =>
              Wiring.attr document
                { wiring with
                  handlers := setProp event (eventHandler events event) wiring.handlers }
                (env.kebabCase event)
                (eventExpression event (eventHandler events event).injectables))
          a).error =
        (b.setAll document
          (keys.map
            (fun e => (env.kebabCase e, eventExpression e (events.getProp e).keys)))).error := by
    intro keys
    induction keys with
    | nil => intro a b he hr; exact ⟨he, hr⟩
    | cons event rest ih =>
      intro a b he hr
      simp only [List.foldl_cons, List.map_cons]
      have hcons : ∀ (w : Wiring) (x : String × String) (xs : List (String × String)),
          w.setAll document (x :: xs) = (w.attr document x.1 x.2).setAll document xs :=
        fun _ _ _ => rfl
      rw [hcons]
      cases ha : a.error with
      | some e =>
        simp only []
        have hb : b.error = some e := hr ▸ ha
        rw [attr_of_error document b e hb]
        exact ih a b he hr
      | none =>
        simp only []
        have hstep := attr_congr document
          { handlers := setProp event (eventHandler events event) a.handlers
            element := a.element
            error := none } b
          (env.kebabCase event) (eventExpression event (eventHandler events event).injectables)
          he (ha ▸ hr)
        exact ih _ _ hstep.1 hstep.2
  unfold addEvents
  by_cases ht : events.truthy = true
  · simp only [ht, if_true]
    exact hfold _ wiring wiring rfl rfl
  · have ht' : events.truthy = false := by simpa using ht
    simp only [ht', Bool.false_eq_true, if_false, keys_of_not_truthy _ ht']
    exact ⟨rfl, rfl⟩

theorem wireComponentElement_eq (env : Env) (document : Document) (self : CustomElement)
    (created : ComponentElement) :
    (wireComponentElement env document self created).element =
        (Wiring.setAll document (derivedAttributes env self.definition self.attributes)
          { handlers := self.handlers
            element :=
              { created with innerHTML := self.componentElementTransclude.getD created.innerHTML }
            error := none }).element ∧
      (wireComponentElement env document self created).error =
        (Wiring.setAll document (derivedAttributes env self.definition self.attributes)
          { handlers := self.handlers
            element :=
              { created with innerHTML := self.componentElementTransclude.getD created.innerHTML }
            error := none }).error := by
  have ht : (match self.componentElementTransclude with
      | some markup => { created with innerHTML := markup }
      | none => created) =
      { created with innerHTML := self.componentElementTransclude.getD created.innerHTML } := by
    cases self.componentElementTransclude <;> rfl
  simp only [wireComponentElement, ht, addCustomBindings_eq, addBindings_eq,
    addInterpolations_eq, replicateAttributes_eq, derivedAttributes, setAll_append]
  exact addEvents_eq env document self.definition.events _

/-- The three ways a connect transition on an element with its mounting element ends. -/
theorem connectedCallback_mounted (env : Env) (document : Document) (self : CustomElement)
    (children : List ComponentElement) (h : self.componentElementWrapper = some children) :
    (document.validName self.definition.componentName = false →
        connectedCallback env document self =
          { element := self, error := some "InvalidCharacterError" }) ∧
      (document.validName self.definition.componentName = true →
        ∀ wired : Wiring,
          wired = wireComponentElement env document self
            { tagName := asciiLowerCase self.definition.componentName
              innerHTML := ""
              attributes := [] } →
          (∀ e, wired.error = some e →
            connectedCallback env document self =
              { element :=
                  { self with
                    componentElement := some wired.element, handlers := wired.handlers }
                error := some e }) ∧
          (wired.error = none →
            connectedCallback env document self =
              { element :=
                  { self with
                    componentElement := some wired.element
                    handlers := wired.handlers
                    compiled := self.compiled ++
                      [{ element := wired.element, scopeId := self.scopeId,
                         scopeDestroyed := self.scope.destroyed }]
                    componentElementWrapper := some (children ++ [wired.element]) }
                error := none })) := by
  constructor
  · intro hv
    simp [connectedCallback, h, createElement, hv]
  · intro hv wired hw
    subst hw
    constructor
    · intro e he
      simp only [connectedCallback, h, createElement, hv, if_true, he]
    · intro he
      simp only [connectedCallback, h, createElement, hv, if_true, he]

/-! ## Element instances -/

/-- C11, as stated, fails: an element that is connected, disconnected and connected again
is compiled twice against the scope with the `$id` its constructor got, and that scope is
destroyed at the second compilation; the constructor is the only step that took a scope
from the root scope. -/
theorem reconnect_compiles_against_destroyed_scope :
    reconnectedElement.error = none ∧
      reconnectedElement.element.compiled.map (fun c => (c.scopeId, c.scopeDestroyed)) =
        [(0, false), (0, true)] ∧
      pickerElement.scopeId = 0 ∧
      (construct sampleRoot pickerClass ["required"] (some []) (some "<b>2024</b>")).1.nextId =
        1 := by
  refine ⟨rfl, rfl, rfl, rfl⟩

/-- C11, amended. The constructor of an element takes one new scope from the root scope
(its `$id` is the next one, the scope is not destroyed and has no data). The connect
transition takes no scope and leaves the scope of the element as it is; it compiles at
most once, and when it throws nothing it compiles the inner element exactly once,
against the scope of the element. The disconnect transition marks that same scope
destroyed. So a first connect of a new element that throws nothing compiles against the
scope of the constructor, which is not destroyed. -/
theorem scope_is_allocated_by_the_constructor (env : Env) (document : Document)
    (root : RootScope) (definition : CustomElementClass) (attributes : List String)
    (wrapper : Option (List ComponentElement)) (transclude : Option String)
    (self : CustomElement) :
    ((construct root definition attributes wrapper transclude).2.scopeId = root.nextId ∧
        (construct root definition attributes wrapper transclude).1.nextId = root.nextId + 1 ∧
        (construct root definition attributes wrapper transclude).2.scope =
          { own := [], parent := root.props, evalAsyncRequests := 0, destroyed := false }) ∧
      ((connectedCallback env document self).element.scopeId = self.scopeId ∧
        (connectedCallback env document self).element.scope = self.scope ∧
        ((connectedCallback env document self).element.compiled = self.compiled ∨
          ∃ element, (connectedCallback env document self).element.compiled =
            self.compiled ++
              [{ element := element, scopeId := self.scopeId,
                 scopeDestroyed := self.scope.destroyed }]) ∧
        ∀ children, self.componentElementWrapper = some children →
          (connectedCallback env document self).error = none →
          ∃ element, (connectedCallback env document self).element.compiled =
            self.compiled ++
              [{ element := element, scopeId := self.scopeId,
                 scopeDestroyed := self.scope.destroyed }]) ∧
      ((disconnectedCallback self).scopeId = self.scopeId ∧
        (disconnectedCallback self).scope = { self.scope with destroyed := true }) ∧
      ∀ children, wrapper = some children →
        (connectedCallback env document
            (construct root definition attributes wrapper transclude).2).error = none →
        ∃ element,
          (connectedCallback env document
              (construct root definition attributes wrapper transclude).2).element.compiled =
            [{ element := element, scopeId := root.nextId, scopeDestroyed := false }] := by
  have hconnect : ∀ self : CustomElement,
      (connectedCallback env document self).element.scopeId = self.scopeId ∧
        (connectedCallback env document self).element.scope = self.scope ∧
        ((connectedCallback env document self).element.compiled = self.compiled ∨
          ∃ element, (connectedCallback env document self).element.compiled =
            self.compiled ++
              [{ element := element, scopeId := self.scopeId,
                 scopeDestroyed := self.scope.destroyed }]) ∧
        ∀ children, self.componentElementWrapper = some children →
          (connectedCallback env document self).error = none →
          ∃ element, (connectedCallback env document self).element.compiled =
            self.compiled ++
              [{ element := element, scopeId := self.scopeId,
                 scopeDestroyed := self.scope.destroyed }] := by
    intro self
    cases hwrap : self.componentElementWrapper with
    | none =>
      have hres : connectedCallback env document self =
          { element := self
            error := some "`custom-element-component` element should be defined" } := by
        simp only [connectedCallback, hwrap]
      rw [hres]
      exact ⟨rfl, rfl, .inl rfl, fun _ hc => by cases hc⟩
    | some children =>
      obtain ⟨hinvalid, hvalid⟩ := connectedCallback_mounted env document self children hwrap
      by_cases hv : document.validName self.definition.componentName = true
      · obtain ⟨hthrown, hdone⟩ := hvalid hv _ rfl
        cases hw : (wireComponentElement env document self
            { tagName := asciiLowerCase self.definition.componentName
              innerHTML := ""
              attributes := [] }).error with
        | some e =>
          rw [hthrown e hw]
          exact ⟨rfl, rfl, .inl rfl, fun _ _ hc => by cases hc⟩
        | none =>
          rw [hdone hw]
          exact ⟨rfl, rfl, .inr ⟨_, rfl⟩, fun _ _ _ => ⟨_, rfl⟩⟩
      · have hv' : document.validName self.definition.componentName = false := by
          simpa using hv
        rw [hinvalid hv']
        exact ⟨rfl, rfl, .inl rfl, fun _ _ hc => by cases hc⟩
  refine ⟨⟨rfl, rfl, rfl⟩, hconnect self, ⟨rfl, rfl⟩, ?_⟩
  intro children h hok
  subst h
  exact (hconnect _).2.2.2 children rfl hok

/-- C12. For every element without a `custom-element-component` element, the connect
transition throws ``'`custom-element-component` element should be defined'`` and leaves
the element as it was: no inner element, no handler on the scope, no compilation and
nothing appended. -/
theorem connect_without_mounting_element_fails (env : Env) (document : Document)
    (self : CustomElement) (h : self.componentElementWrapper = none) :
    connectedCallback env document self =
      { element := self
        error := some "`custom-element-component` element should be defined" } := by
  unfold connectedCallback
  rw [h]

/-- Witness for C12: a new `custom-date-picker` element without a mounting element. -/
theorem connect_without_mounting_element_fails_witness :
    (connectedCallback kebabEnv sampleDocument unmountedElement).error =
        some "`custom-element-component` element should be defined" ∧
      (connectedCallback kebabEnv sampleDocument
        unmountedElement).element.componentElement.isNone = true ∧
      (connectedCallback kebabEnv sampleDocument unmountedElement).element.handlers.length =
        0 ∧
      (connectedCallback kebabEnv sampleDocument unmountedElement).element.compiled.length =
        0 := by
  rw [connect_without_mounting_element_fails kebabEnv sampleDocument unmountedElement rfl]
  exact ⟨rfl, rfl, rfl, rfl⟩

/-! ## The attributes a connect transition sets -/

/-- C15, as stated, fails: for the wrapper of the source's own example, whose `attrs`
name `required`, on an outer element that has `required`, the connect transition throws
nothing and the inner element gets `required="required"`; the attribute derived from the
wrapper is `required` with an empty value. -/
theorem connect_writes_required_as_its_value :
    (connectedCallback kebabEnv sampleDocument pickerElement).error = none ∧
      (derivedAttributes kebabEnv pickerElement.definition pickerElement.attributes).lookup
          "required" = some "" ∧
      (connectedCallback kebabEnv sampleDocument pickerElement).element.componentElement.map
          (fun element => element.attributes.lookup "required") =
        some (some "required") := by
  refine ⟨rfl, rfl, rfl⟩

/-- C15, amended. On an element that has its mounting element, the connect transition
throws nothing exactly when the document accepts the component name and the name of every
attribute derived from the wrapper (each plain attribute the outer element has, with an
empty value; for each interpolation `p`, `kebabCase(p)` with `'{{ p }}'`; for each
binding `b`, `kebabCase(b)` with `b`; for each custom binding its `attr` with its
`attrValue`; for each event `e`, `kebabCase(e)` with `e(i_1, ..., i_n)`). When it throws
nothing, the inner element has exactly these attributes as jqLite writes them, set in
this order on a new element: the name in lower case, and as value the lower-cased name
when it is one of jqLite's boolean attributes and the derived value otherwise. So every
attribute has the value of the last write that names it and there is no other
attribute; where no derived name is changed by lower-casing or is a boolean attribute,
the attributes are the derived ones verbatim. The element compiled against the scope
and the element appended as last child of the mounting element are the inner element
with all these attributes. -/
theorem connect_sets_derived_attributes (env : Env) (document : Document)
    (self : CustomElement) (children : List ComponentElement)
    (h : self.componentElementWrapper = some children) :
    ((connectedCallback env document self).error = none ↔
        document.validName self.definition.componentName = true ∧
          ∀ write ∈ derivedAttributes env self.definition self.attributes,
            document.validName write.1 = true) ∧
      ((connectedCallback env document self).error = none →
        ∃ element : ComponentElement,
          (connectedCallback env document self).element.componentElement = some element ∧
            element.tagName = asciiLowerCase self.definition.componentName ∧
            element.attributes =
              applyAttributes
                ((derivedAttributes env self.definition self.attributes).map
                  (written document)) ∧
            (∀ name, element.attributes.lookup name =
              ((derivedAttributes env self.definition self.attributes).map
                (written document)).reverse.lookup name) ∧
            ((∀ write ∈ derivedAttributes env self.definition self.attributes,
                written document write = write) →
              element.attributes =
                applyAttributes (derivedAttributes env self.definition self.attributes)) ∧
            (connectedCallback env document self).element.compiled =
              self.compiled ++
                [{ element := element, scopeId := self.scopeId,
                   scopeDestroyed := self.scope.destroyed }] ∧
            (connectedCallback env document self).element.componentElementWrapper =
              some (children ++ [element])) := by
  obtain ⟨hinvalid, hvalid⟩ := connectedCallback_mounted env document self children h
  by_cases hv : document.validName self.definition.componentName = true
  swap
  · have hv' : document.validName self.definition.componentName = false := by simpa using hv
    rw [hinvalid hv']
    exact ⟨⟨fun hc => (by cases hc), fun hc => absurd hc.1 hv⟩, fun hc => (by cases hc)⟩
  obtain ⟨hthrown, hdone⟩ := hvalid hv _ rfl
  obtain ⟨helement, herror⟩ := wireComponentElement_eq env document self
    { tagName := asciiLowerCase self.definition.componentName, innerHTML := "", attributes := [] }
  obtain ⟨hiff, hattrs⟩ := setAll_spec document
    (derivedAttributes env self.definition self.attributes)
    { handlers := self.handlers
      element :=
        { tagName := asciiLowerCase self.definition.componentName
          innerHTML := self.componentElementTransclude.getD ""
          attributes := [] }
      error := none } rfl
  cases hw : (wireComponentElement env document self
      { tagName := asciiLowerCase self.definition.componentName
        innerHTML := ""
        attributes := [] }).error with
  | some e =>
    rw [hthrown e hw]
    refine ⟨⟨fun hc => (by cases hc), fun hc => ?_⟩, fun hc => (by cases hc)⟩
    have hnone := hiff.2 hc.2
    rw [← herror, hw] at hnone
    cases hnone
  | none =>
    rw [hdone hw]
    have hok := herror ▸ hw
    obtain ⟨ha, htag, -, -⟩ := hattrs hok
    have hattributes : (wireComponentElement env document self
        { tagName := asciiLowerCase self.definition.componentName
          innerHTML := ""
          attributes := [] }).element.attributes =
        applyAttributes
          ((derivedAttributes env self.definition self.attributes).map (written document)) := by
      rw [helement, ha]
      rfl
    refine ⟨⟨fun _ => ⟨hv, hiff.1 hok⟩, fun _ => rfl⟩, fun _ => ⟨_, rfl, ?_, hattributes, ?_, ?_,
      rfl, rfl⟩⟩
    · rw [helement, htag]
    · intro name
      rw [hattributes, applyAttributes, lookup_foldl_setProp]
      simp [List.lookup]
    · intro hsame
      rw [hattributes]
      congr 1
      exact (List.map_congr_left hsame).trans (List.map_id _)

/-- Witness for C15: the `custom-date-picker` element of the source's example, with the
attribute `required`. -/
theorem connect_sets_derived_attributes_witness :
    (connectedCallback kebabEnv sampleDocument pickerElement).error = none ∧
      ((connectedCallback kebabEnv sampleDocument pickerElement).element.componentElement.map
          (fun element => (element.tagName, element.attributes))) =
        some ("date-picker",
          [ ("required", "required"),
            ("api-url", "\x7b\x7b apiUrl \x7d\x7d"),
            ("selected-year", "selectedYear"),
            ("custom-attribute", "\x7b\x7b someCustomValue \x7d\x7d"),
            ("on-change", "onChange(model, init)") ]) := by
  obtain ⟨-, hdone⟩ := connect_sets_derived_attributes kebabEnv sampleDocument pickerElement []
    rfl
  obtain ⟨element, hcomponent, htag, hattributes, -, -, -, -⟩ := hdone rfl
  refine ⟨rfl, ?_⟩
  rw [hcomponent, Option.map, htag, hattributes]
  rfl

end CustomElementWrapper
